import Mathlib

/-!
Formal model of the Moral Duel case-lifecycle and reward-settlement engine.

The definitions below are a shallow embedding of the Python source:
`app/services/case_service.py` (participation gate), `app/services/reward_service.py`
(reward engine), `app/jobs/case_generator.py` (expiry sweep and AI case creation),
`app/jobs/transaction_monitor.py` (settlement monitor), `app/services/ai_service.py`
(verdict generation and commit hash), and the read paths in `app/routes/cases.py`.

Database rows are lists of records; Prisma `find_unique`/`find_many`/`update` calls
become list lookups and keyed in-place maps.  Queries the database may answer in
more than one order (Prisma `order={"votes": "desc"}` fixes only the sort key, the
order of rows tied on that key is store-dependent) are modelled relationally: the
operation takes the query result as a parameter, and theorems carry the hypothesis
that the parameter is a permutation of the matching rows sorted on the key.
Monetary amounts are rationals (Python floats in the source), timestamps are
naturals (seconds).
-/

namespace MoralDuel

/-! ## Data model (rows of the Prisma tables) -/

/-- A row of the `Case` table. -/
structure CaseRow where
  id : Nat
  title : String
  context : String
  status : String
  aiVerdict : Option String
  aiVerdictReasoning : Option String
  aiConfidence : Option ℚ
  verdictHash : Option String
  blockchainTxHash : Option String
  yesVotes : Nat
  noVotes : Nat
  totalParticipants : Nat
  rewardPool : Option ℚ
  createdById : Option Nat
  isAiGenerated : Bool
  createdAt : Nat
  closesAt : Option Nat
  closedAt : Option Nat
  deriving DecidableEq, Repr

/-- A row of the `UserVote` table; `likedArguments` is the JSON-encoded id list. -/
structure UserVoteRow where
  userId : Nat
  caseId : Nat
  side : String
  votedAt : Nat
  likedArguments : List Nat
  hasSubmittedArg : Bool
  deriving DecidableEq, Repr

/-- A row of the `Argument` table; `votes` is the like counter. -/
structure ArgumentRow where
  id : Nat
  caseId : Nat
  userId : Nat
  content : String
  side : String
  votes : Int
  isTop3 : Bool
  createdAt : Nat
  deriving DecidableEq, Repr

/-- A row of the `ArgumentVote` table (a like of one argument by one user). -/
structure ArgumentVoteRow where
  userId : Nat
  argumentId : Nat
  deriving DecidableEq, Repr

/-- A row of the `Reward` table. -/
structure RewardRow where
  id : Nat
  userId : Nat
  caseId : Nat
  amount : ℚ
  rtype : List String
  status : String
  blockchainTxHash : Option String
  claimedAt : Option Nat
  completedAt : Option Nat
  createdAt : Nat
  updatedAt : Option Nat
  deriving DecidableEq, Repr

/-- A row of the `User` table (the fields the engine touches). -/
structure UserRow where
  id : Nat
  name : String
  totalPoints : ℚ
  deriving DecidableEq, Repr

/-- The database state. -/
structure DB where
  cases : List CaseRow
  userVotes : List UserVoteRow
  arguments : List ArgumentRow
  argumentVotes : List ArgumentVoteRow
  rewards : List RewardRow
  users : List UserRow
  deriving DecidableEq, Repr

/-! ## Generic keyed access (Prisma `find_unique` / `update` on a key) -/

/-- `find_unique` on key `k`: first row whose key matches. -/
def findByKey {α κ : Type} [DecidableEq κ] (key : α → κ) (k : κ) (l : List α) : Option α :=
  l.find? (fun x => decide (key x = k))

/-- `update` on key `k`: rewrite every row whose key matches (unique in the store). -/
def updateByKey {α κ : Type} [DecidableEq κ] (key : α → κ) (k : κ) (f : α → α) (l : List α) :
    List α :=
  l.map (fun x => if key x = k then f x else x)

theorem findByKey_updateByKey_same {α κ : Type} [DecidableEq κ] (key : α → κ) (k : κ)
    (f : α → α) (l : List α) (hf : ∀ x, key (f x) = key x) :
    findByKey key k (updateByKey key k f l) = (findByKey key k l).map f := by
  induction l with
  | nil => rfl
  | cons x xs ih =>
    simp only [findByKey, updateByKey, List.map_cons, List.find?_cons] at *
    by_cases hx : key x = k
    · simp [hx, hf x]
    · simp [hx, ih]

theorem findByKey_updateByKey_ne {α κ : Type} [DecidableEq κ] (key : α → κ) (k k' : κ)
    (f : α → α) (l : List α) (hf : ∀ x, key (f x) = key x) (hne : k' ≠ k) :
    findByKey key k' (updateByKey key k f l) = findByKey key k' l := by
  unfold findByKey updateByKey
  rw [List.find?_map]
  have hp : ((fun x => decide (key x = k')) ∘ (fun x => if key x = k then f x else x)) =
      (fun x => decide (key x = k')) := by
    funext x
    by_cases hx : key x = k <;> simp [hx, hf x]
  rw [hp]
  cases hfind : l.find? (fun x => decide (key x = k')) with
  | none => rfl
  | some y =>
    have hy' := List.find?_some hfind
    have hy : key y = k' := of_decide_eq_true hy'
    have hyk : key y ≠ k := by rw [hy]; exact hne
    simp [hyk]

theorem map_updateByKey {α κ β : Type} [DecidableEq κ] (key : α → κ) (k : κ) (f : α → α)
    (l : List α) (g : α → β) (hg : ∀ x, g (f x) = g x) :
    (updateByKey key k f l).map g = l.map g := by
  induction l with
  | nil => rfl
  | cons x xs ih =>
    simp only [updateByKey, List.map_cons] at *
    by_cases hx : key x = k
    · simp [hx, hg x, ih]
    · simp [hx, ih]

theorem mem_updateByKey {α κ : Type} [DecidableEq κ] {key : α → κ} {k : κ} {f : α → α}
    {l : List α} {y : α} (hy : y ∈ updateByKey key k f l) :
    (∃ x ∈ l, y = f x) ∨ y ∈ l := by
  simp only [updateByKey, List.mem_map] at hy
  obtain ⟨x, hx, hxy⟩ := hy
  by_cases hk : key x = k
  · rw [if_pos hk] at hxy
    exact Or.inl ⟨x, hx, hxy.symm⟩
  · right
    rw [if_neg hk] at hxy
    exact hxy ▸ hx

/-! ## Database lookups and keyed updates -/

/-- The `(user_id, case_id)` unique key of `UserVote`. -/
def votePair (v : UserVoteRow) : Nat × Nat := (v.userId, v.caseId)

/-- The `(user_id, argument_id)` unique key of `ArgumentVote`. -/
def likePair (x : ArgumentVoteRow) : Nat × Nat := (x.userId, x.argumentId)

def DB.findCase (db : DB) (cid : Nat) : Option CaseRow :=
  findByKey (fun c => c.id) cid db.cases

def DB.findUserVote (db : DB) (uid cid : Nat) : Option UserVoteRow :=
  findByKey votePair (uid, cid) db.userVotes

def DB.findArgument (db : DB) (aid : Nat) : Option ArgumentRow :=
  findByKey (fun a => a.id) aid db.arguments

def DB.findArgumentVote (db : DB) (uid aid : Nat) : Option ArgumentVoteRow :=
  findByKey likePair (uid, aid) db.argumentVotes

def DB.findReward (db : DB) (rid : Nat) : Option RewardRow :=
  findByKey (fun r => r.id) rid db.rewards

def DB.findUser (db : DB) (uid : Nat) : Option UserRow :=
  findByKey (fun u => u.id) uid db.users

def DB.updateCase (db : DB) (cid : Nat) (f : CaseRow → CaseRow) : DB :=
  { db with cases := updateByKey (fun c => c.id) cid f db.cases }

def DB.updateUserVote (db : DB) (uid cid : Nat) (f : UserVoteRow → UserVoteRow) : DB :=
  { db with userVotes := updateByKey votePair (uid, cid) f db.userVotes }

def DB.updateArgument (db : DB) (aid : Nat) (f : ArgumentRow → ArgumentRow) : DB :=
  { db with arguments := updateByKey (fun a => a.id) aid f db.arguments }

def DB.updateReward (db : DB) (rid : Nat) (f : RewardRow → RewardRow) : DB :=
  { db with rewards := updateByKey (fun r => r.id) rid f db.rewards }

def DB.updateUser (db : DB) (uid : Nat) (f : UserRow → UserRow) : DB :=
  { db with users := updateByKey (fun u => u.id) uid f db.users }

/-- Convenience projections used in theorem statements. -/
def DB.caseStatus (db : DB) (cid : Nat) : Option String :=
  (db.findCase cid).map (fun c => c.status)

def DB.rewardStatus (db : DB) (rid : Nat) : Option String :=
  (db.findReward rid).map (fun r => r.status)

def DB.userPoints (db : DB) (uid : Nat) : Option ℚ :=
  (db.findUser uid).map (fun u => u.totalPoints)

def DB.argTop3 (db : DB) (aid : Nat) : Option Bool :=
  (db.findArgument aid).map (fun a => a.isTop3)

/-! ## Participation gate (`app/services/case_service.py`) -/

/-- The vote side enum (`VoteSide`). -/
inductive VoteSide where
  | YES
  | NO
  deriving DecidableEq, Repr

def VoteSide.value : VoteSide → String
  | .YES => "YES"
  | .NO => "NO"

/-- `CaseService.vote_on_case`.  Counter updates write back values computed from the
row read at the start of the call (the source's read-then-write step). -/
def voteOnCase (db : DB) (caseId userId : Nat) (side : VoteSide) (now : Nat) :
    Except String (DB × CaseRow × UserVoteRow) :=
  match db.findCase caseId with
  | none => .error "Case not found"
  | some c =>
    if c.status ≠ "active" then .error "Case is not active for voting"
    else if (match c.closesAt with | some t => decide (t < now) | none => false) then
      .error "Case voting period has closed"
    else match db.findUserVote userId caseId with
      | some _ => .error "User has already voted on this case"
      | none =>
        let v : UserVoteRow :=
          { userId := userId, caseId := caseId, side := side.value, votedAt := now
            likedArguments := [], hasSubmittedArg := false }
        let db1 : DB := { db with userVotes := db.userVotes ++ [v] }
        let upd : CaseRow → CaseRow := fun k =>
          if side = .YES then
            { k with totalParticipants := c.totalParticipants + 1, yesVotes := c.yesVotes + 1 }
          else
            { k with totalParticipants := c.totalParticipants + 1, noVotes := c.noVotes + 1 }
        let db2 := db1.updateCase caseId upd
        .ok (db2, upd c, v)

/-- `CaseService.submit_argument`. -/
def submitArgument (db : DB) (caseId userId : Nat) (content : String) (side : VoteSide)
    (now newId : Nat) : Except String (DB × ArgumentRow) :=
  match db.findCase caseId with
  | none => .error "Case not found"
  | some c =>
    if c.status ≠ "active" then .error "Case is not active"
    else match db.findUserVote userId caseId with
      | none => .error "User must vote before submitting arguments"
      | some v =>
        if v.hasSubmittedArg then .error "User has already submitted an argument for this case"
        else if v.likedArguments.length < 3 then
          .error "User must like 3 arguments before submitting their own"
        else
          let a : ArgumentRow :=
            { id := newId, caseId := caseId, userId := userId, content := content
              side := side.value, votes := 0, isTop3 := false, createdAt := now }
          let db1 : DB := { db with arguments := db.arguments ++ [a] }
          let db2 := db1.updateUserVote userId caseId (fun w => { w with hasSubmittedArg := true })
          .ok (db2, a)

/-- `CaseService.vote_on_argument` (like an argument). -/
def voteOnArgument (db : DB) (argumentId userId caseId : Nat) :
    Except String (DB × ArgumentRow) :=
  match db.findArgument argumentId with
  | none => .error "Argument not found"
  | some arg =>
    if arg.caseId ≠ caseId then .error "Argument does not belong to this case"
    else match db.findCase caseId with
      | none => .error "Case is not active"
      | some c =>
        if c.status ≠ "active" then .error "Case is not active"
        else match db.findUserVote userId caseId with
          | none => .error "User must vote on case before liking arguments"
          | some v =>
            match db.findArgumentVote userId argumentId with
            | some _ => .error "User has already liked this argument"
            | none =>
              if v.likedArguments.length ≥ 3 then
                .error "User can only like 3 arguments per case"
              else
                let av : ArgumentVoteRow := { userId := userId, argumentId := argumentId }
                let db1 : DB := { db with argumentVotes := db.argumentVotes ++ [av] }
                let db2 := db1.updateArgument argumentId (fun b => { b with votes := arg.votes + 1 })
                let db3 := db2.updateUserVote userId caseId
                  (fun w => { w with likedArguments := v.likedArguments ++ [argumentId] })
                .ok (db3, { arg with votes := arg.votes + 1 })

/-- The first two writes of `CaseService.unvote_argument`: delete the like row and
write back the decremented (floored at 0) counter. -/
def unvoteBase (db : DB) (argumentId userId : Nat) (arg : ArgumentRow) : DB :=
  DB.updateArgument
    { db with argumentVotes :=
        db.argumentVotes.filter (fun x => ¬(x.userId = userId ∧ x.argumentId = argumentId)) }
    argumentId (fun b => { b with votes := max 0 (arg.votes - 1) })

/-- The full state change of `CaseService.unvote_argument` once the preconditions
passed: after `unvoteBase`, drop the id from the voter's liked list when present. -/
def unvoteApply (db : DB) (argumentId userId caseId : Nat) (arg : ArgumentRow) : DB :=
  match (unvoteBase db argumentId userId arg).findUserVote userId caseId with
  | some v =>
    if v.likedArguments ≠ [] ∧ argumentId ∈ v.likedArguments then
      (unvoteBase db argumentId userId arg).updateUserVote userId caseId
        (fun w => { w with likedArguments := v.likedArguments.erase argumentId })
    else unvoteBase db argumentId userId arg
  | none => unvoteBase db argumentId userId arg

/-- `CaseService.unvote_argument` (unlike).  The like row is deleted, the counter is
decremented with a floor at 0, and the id is removed from the voter's liked list. -/
def unvoteArgument (db : DB) (argumentId userId caseId : Nat) :
    Except String (DB × ArgumentRow) :=
  match db.findArgument argumentId with
  | none => .error "Argument not found"
  | some arg =>
    if arg.caseId ≠ caseId then .error "Argument does not belong to this case"
    else match db.findArgumentVote userId argumentId with
      | none => .error "User has not liked this argument"
      | some _ =>
        .ok (unvoteApply db argumentId userId caseId arg,
          { arg with votes := max 0 (arg.votes - 1) })

/-- `CaseService.create_case` (user submission enters moderation, AI goes active). -/
def createCase (db : DB) (title context : String) (userId : Nat) (isAiGenerated : Bool)
    (now newId : Nat) : DB × CaseRow :=
  let status := if isAiGenerated then "active" else "pending_moderation"
  let closesAt := if status = "active" then some (now + 86400) else none
  let c : CaseRow :=
    { id := newId, title := title, context := context, status := status
      aiVerdict := none, aiVerdictReasoning := none, aiConfidence := none
      verdictHash := none, blockchainTxHash := none
      yesVotes := 0, noVotes := 0, totalParticipants := 0, rewardPool := none
      createdById := some userId, isAiGenerated := isAiGenerated
      createdAt := now, closesAt := closesAt, closedAt := none }
  ({ db with cases := db.cases ++ [c] }, c)

/-! ## Reward engine (`app/services/reward_service.py`) -/

/-- One entry of the `distributions` list built by `RewardService.calculate_rewards`. -/
structure Distribution where
  userId : Nat
  amount : ℚ
  dtype : String
  rank : Option Nat
  deriving DecidableEq, Repr

/-- The result dict of `RewardService.calculate_rewards`. -/
structure RewardCalc where
  caseId : Nat
  rewardPool : ℚ
  totalParticipants : Nat
  distributions : List Distribution
  deriving DecidableEq, Repr

/-- Category percentages and top-3 weights (`RewardService` class constants). -/
def WINNING_VOTERS_PERCENTAGE : ℚ := 40 / 100
def TOP_ARGUMENTS_PERCENTAGE : ℚ := 30 / 100
def PARTICIPANTS_PERCENTAGE : ℚ := 20 / 100
def CREATOR_PERCENTAGE : ℚ := 10 / 100
def TOP_WEIGHTS : List ℚ := [50 / 100, 30 / 100, 20 / 100]
def MIN_PARTICIPANTS_FOR_CREATOR : Nat := 100

/-- `RewardService.calculate_rewards`.  `argOrd` is the result of the service's own
`db.argument.find_many(where case_id, order votes desc)` query; the caller supplies it
because the store fixes only the sort key, not the order of ties.  The `c` argument is
the case object handed in by the caller (the expiry sweep passes the row it read
*before* updating the status — see `closeOneCase`). -/
def calculateRewards (db : DB) (c : CaseRow) (argOrd : List ArgumentRow) :
    Except String RewardCalc :=
  if c.status ≠ "closed" then .error "Case must be closed to calculate rewards"
  else if c.aiVerdict = none ∨ c.aiVerdict = some "" then
    .error "Case must have a verdict to calculate rewards"
  else
    let rewardPool : ℚ := match c.rewardPool with | some p => p | none => 0
    if rewardPool ≤ 0 then
      .ok { caseId := c.id, rewardPool := 0, totalParticipants := 0, distributions := [] }
    else
      let votes := db.userVotes.filter (fun v => v.caseId = c.id)
      let totalParticipants := c.totalParticipants
      let winningVotersPool := rewardPool * WINNING_VOTERS_PERCENTAGE
      let winningVoters := votes.filter (fun v => c.aiVerdict = some v.side)
      let dists1 : List Distribution :=
        if winningVoters ≠ [] then
          winningVoters.map (fun v =>
            { userId := v.userId, amount := winningVotersPool / winningVoters.length
              dtype := "winning_voter", rank := none })
        else []
      let topArgsPool := rewardPool * TOP_ARGUMENTS_PERCENTAGE
      let top3Args := (argOrd.filter (fun a => a.isTop3)).take 3
      let dists2 : List Distribution :=
        (top3Args.enum).map (fun p =>
          { userId := p.2.userId, amount := topArgsPool * (TOP_WEIGHTS.getD p.1 0)
            dtype := "top_argument", rank := some (p.1 + 1) })
      let participantsPool := rewardPool * PARTICIPANTS_PERCENTAGE
      let dists3 : List Distribution :=
        if totalParticipants > 0 then
          let participantIds :=
            (votes.map (fun v => v.userId) ++ argOrd.map (fun a => a.userId)).dedup
          let participants := db.users.filter (fun u => u.id ∈ participantIds)
          participants.map (fun u =>
            { userId := u.id, amount := participantsPool / totalParticipants
              dtype := "participant", rank := none })
        else []
      let dists4 : List Distribution :=
        match c.createdById with
        | some creatorId =>
          if totalParticipants ≥ MIN_PARTICIPANTS_FOR_CREATOR then
            match db.findUser creatorId with
            | some creator =>
              [{ userId := creator.id, amount := rewardPool * CREATOR_PERCENTAGE
                 dtype := "creator", rank := none }]
            | none => []
          else []
        | none => []
      .ok { caseId := c.id, rewardPool := rewardPool, totalParticipants := totalParticipants
            distributions := dists1 ++ dists2 ++ dists3 ++ dists4 }

/-- The per-user grouping step of `RewardService.create_reward_records`: distributions
are folded into one `(userId, total amount, category list)` entry per user, in first-seen
order. -/
def groupDistributions (dists : List Distribution) : List (Nat × ℚ × List String) :=
  dists.foldl
    (fun acc d =>
      if acc.any (fun e => e.1 = d.userId) then
        acc.map (fun e => if e.1 = d.userId then (e.1, e.2.1 + d.amount, e.2.2 ++ [d.dtype]) else e)
      else acc ++ [(d.userId, d.amount, [d.dtype])])
    []

/-- `RewardService.create_reward_records`: one `Reward` row per user with the summed
amount, the distinct category names, and `status = "pending"`.  Row ids continue from
the current table size (autoincrement). -/
def createRewardRecords (db : DB) (caseId : Nat) (dists : List Distribution) (now : Nat) :
    DB :=
  let groups := groupDistributions dists
  let base := db.rewards.length
  let newRows := groups.enum.map (fun p =>
    ({ id := base + p.1, userId := p.2.1, caseId := caseId, amount := p.2.2.1
       rtype := p.2.2.2.dedup, status := "pending", blockchainTxHash := none
       claimedAt := none, completedAt := none, createdAt := now, updatedAt := some now
       } : RewardRow))
  { db with rewards := db.rewards ++ newRows }

/-- `RewardService.mark_reward_claimed` (invoked from the reward-claim route). -/
def markRewardClaimed (db : DB) (rewardId : Nat) (txHash : String) (now : Nat) : DB :=
  db.updateReward rewardId (fun r =>
    { r with
        status := "processing", blockchainTxHash := some txHash
        claimedAt := some now, updatedAt := some now })

/-! ## Expiry sweep (`close_expired_cases_job` in `app/jobs/case_generator.py`) -/

/-- A list is a legal result of `db.argument.find_many(where case_id, order votes desc)`:
a permutation of the case's argument rows that is sorted by `votes` descending.  The
store guarantees nothing about the relative order of rows tied on `votes`. -/
def isArgQueryResult (db : DB) (caseId : Nat) (res : List ArgumentRow) : Prop :=
  res.Perm (db.arguments.filter (fun a => a.caseId = caseId)) ∧
  res.Pairwise (fun a b => b.votes ≤ a.votes)

instance (db : DB) (caseId : Nat) (res : List ArgumentRow) :
    Decidable (isArgQueryResult db caseId res) := by
  unfold isArgQueryResult
  infer_instance

/-- `update_many(where id in top3, data is_top_3 := true)`. -/
def markTop3 (db : DB) (top3Ids : List Nat) : DB :=
  if top3Ids = [] then db
  else { db with arguments :=
      db.arguments.map (fun a => if a.id ∈ top3Ids then { a with isTop3 := true } else a) }

/-- The closing writes of the sweep's loop body: mark the first three of the ordered
arguments as top-3, then set the case `Closed` with `closed_at = now`. -/
def closeCaseUpdate (db : DB) (c : CaseRow) (ord : List ArgumentRow) (now : Nat) : DB :=
  (markTop3 db ((ord.take 3).map (fun a => a.id))).updateCase c.id
    (fun k => { k with status := "closed", closedAt := some now })

/-- The loop body of `close_expired_cases_job` for one expired case `c` (the row as it
was read by the sweep's `find_many`, so `c.status = "active"`).  `ord` is the argument
query made for the top-3 selection and `ordR` the one `calculate_rewards` makes for
itself afterwards.  The rewards step receives the *stale* row `c` — the sweep never
re-reads the case after setting `status = "closed"` in the store, and a reward error
is swallowed, leaving the case closed. -/
def closeOneCase (db : DB) (c : CaseRow) (ord ordR : List ArgumentRow) (now : Nat) : DB :=
  match calculateRewards (closeCaseUpdate db c ord now) c ordR with
  | .error _ => closeCaseUpdate db c ord now
  | .ok rc =>
    if rc.distributions = [] then closeCaseUpdate db c ord now
    else createRewardRecords (closeCaseUpdate db c ord now) c.id rc.distributions now

/-- The sweep's selection query: `Active` cases with `closes_at <= now`. -/
def expiredCases (db : DB) (now : Nat) : List CaseRow :=
  db.cases.filter (fun c =>
    c.status == "active" && (match c.closesAt with | some t => decide (t ≤ now) | none => false))

/-- `close_expired_cases_job`: each selected case is processed independently by
`closeOneCase`; `ords`/`ordsR` give the per-case argument query results. -/
def closeExpiredCasesJob (db : DB) (now : Nat) (ords ordsR : Nat → List ArgumentRow) : DB :=
  (expiredCases db now).foldl (fun acc c => closeOneCase acc c (ords c.id) (ordsR c.id) now) db

/-! ## Settlement monitor (`monitor_transactions_job` in `app/jobs/transaction_monitor.py`) -/

/-- The dict returned by `blockchain_service.get_transaction`, as the monitor reads it:
`status` string plus `confirmations` (defaulted to 0 by `.get`). -/
structure TxStatus where
  status : String
  confirmations : Nat
  deriving DecidableEq, Repr

/-- The loop body of `monitor_transactions_job` for one `Processing` reward `r` (the row
as read by the batch query) with ledger answer `tx`. -/
def monitorOneReward (db : DB) (r : RewardRow) (tx : TxStatus) (now : Nat) : DB :=
  if tx.status = "confirmed" then
    if tx.confirmations ≥ 1 then
      (db.updateReward r.id (fun k =>
        { k with status := "completed", completedAt := some now, updatedAt := some now
          })).updateUser r.userId
        (fun u => { u with totalPoints := u.totalPoints + r.amount })
    else db
  else if tx.status = "not_found" then
    match r.updatedAt with
    | some t =>
      if now - t > 86400 then
        db.updateReward r.id (fun k => { k with status := "failed", updatedAt := some now })
      else db
    | none => db
  else if tx.status = "error" then
    db.updateReward r.id (fun k => { k with status := "failed", updatedAt := some now })
  else db

/-- `monitor_transactions_job`: up to 100 `Processing` rewards that carry a transaction
hash, each reconciled independently against the ledger answer for its hash. -/
def monitorTransactionsJob (db : DB) (ledger : String → TxStatus) (now : Nat) : DB :=
  let procs := (db.rewards.filter
    (fun r => r.status == "processing" && r.blockchainTxHash.isSome)).take 100
  procs.foldl
    (fun acc r =>
      match r.blockchainTxHash with
      | some h => monitorOneReward acc r (ledger h) now
      | none => acc)
    db

/-! ## SHA-256 (model of Python's `hashlib.sha256(...).hexdigest()`)

Words are naturals kept below `2^32`; bitwise operations recurse on an explicit
32-bit fuel so every definition reduces in the kernel. -/

/-- Combine two words bit by bit (32 bits). -/
def bit32 (f : Bool → Bool → Bool) : Nat → Nat → Nat → Nat
  | 0, _, _ => 0
  | fuel + 1, a, b =>
    (cond (f (a % 2 == 1) (b % 2 == 1)) 1 0) + 2 * bit32 f fuel (a / 2) (b / 2)

def xor32 (a b : Nat) : Nat := bit32 bne 32 a b

def and32 (a b : Nat) : Nat := bit32 and 32 a b

def not32 (a : Nat) : Nat := (2 ^ 32 - 1) - (a % 2 ^ 32)

def rotr32 (n a : Nat) : Nat := a / 2 ^ n + a % 2 ^ n * 2 ^ (32 - n)

def shr32 (n a : Nat) : Nat := a / 2 ^ n

def bigSigma0 (x : Nat) : Nat := xor32 (rotr32 2 x) (xor32 (rotr32 13 x) (rotr32 22 x))

def bigSigma1 (x : Nat) : Nat := xor32 (rotr32 6 x) (xor32 (rotr32 11 x) (rotr32 25 x))

def smallSigma0 (x : Nat) : Nat := xor32 (rotr32 7 x) (xor32 (rotr32 18 x) (shr32 3 x))

def smallSigma1 (x : Nat) : Nat := xor32 (rotr32 17 x) (xor32 (rotr32 19 x) (shr32 10 x))

def chWord (e f g : Nat) : Nat := xor32 (and32 e f) (and32 (not32 e) g)

def majWord (a b c : Nat) : Nat := xor32 (and32 a b) (xor32 (and32 a c) (and32 b c))

/-- The 64 SHA-256 round constants. -/
def sha256K : List Nat :=
  [1116352408, 1899447441, 3049323471, 3921009573, 961987163, 1508970993,
   2453635748, 2870763221, 3624381080, 310598401, 607225278, 1426881987,
   1925078388, 2162078206, 2614888103, 3248222580, 3835390401, 4022224774,
   264347078, 604807628, 770255983, 1249150122, 1555081692, 1996064986,
   2554220882, 2821834349, 2952996808, 3210313671, 3336571891, 3584528711,
   113926993, 338241895, 666307205, 773529912, 1294757372, 1396182291,
   1695183700, 1986661051, 2177026350, 2456956037, 2730485921, 2820302411,
   3259730800, 3345764771, 3516065817, 3600352804, 4094571909, 275423344,
   430227734, 506948616, 659060556, 883997877, 958139571, 1322822218,
   1537002063, 1747873779, 1955562222, 2024104815, 2227730452, 2361852424,
   2428436474, 2756734187, 3204031479, 3329325298]

/-- The initial hash state. -/
def sha256H0 : List Nat :=
  [1779033703, 3144134277, 1013904242, 2773480762,
   1359893119, 2600822924, 528734635, 1541459225]

/-- Big-endian byte decomposition of `v` into `n` bytes. -/
def bytesBE : Nat → Nat → List Nat
  | 0, _ => []
  | n + 1, v => bytesBE n (v / 256) ++ [v % 256]

/-- Append the 0x80 marker, zero padding, and the 64-bit message bit length. -/
def sha256Pad (msg : List Nat) : List Nat :=
  let len := msg.length
  let padZeros := (119 - len % 64) % 64
  msg ++ [0x80] ++ List.replicate padZeros 0 ++ bytesBE 8 (8 * len)

/-- Big-endian 32-bit words from a byte list whose length is a multiple of 4. -/
def toWordsBE : List Nat → List Nat
  | b0 :: b1 :: b2 :: b3 :: rest =>
    (((b0 * 256 + b1) * 256 + b2) * 256 + b3) :: toWordsBE rest
  | _ => []

/-- Extend a 16-word block to the 64-word message schedule (`n` extension steps). -/
def extendSchedule : Nat → List Nat → List Nat
  | 0, ws => ws
  | n + 1, ws =>
    let t := ws.length
    let next := (smallSigma1 (ws.getD (t - 2) 0) + ws.getD (t - 7) 0 +
      smallSigma0 (ws.getD (t - 15) 0) + ws.getD (t - 16) 0) % 2 ^ 32
    extendSchedule n (ws ++ [next])

/-- One compression round on the 8-word working state. -/
def sha256Round (w k : Nat) (st : List Nat) : List Nat :=
  match st with
  | [a, b, c, d, e, f, g, h] =>
    let t1 := (h + bigSigma1 e + chWord e f g + k + w) % 2 ^ 32
    let t2 := (bigSigma0 a + majWord a b c) % 2 ^ 32
    [(t1 + t2) % 2 ^ 32, a, b, c, (d + t1) % 2 ^ 32, e, f, g]
  | st => st

def sha256Rounds : List Nat → List Nat → List Nat → List Nat
  | [], _, st => st
  | _, [], st => st
  | w :: ws, k :: ks, st => sha256Rounds ws ks (sha256Round w k st)

/-- Compress one 16-word block into the hash state. -/
def sha256Compress (h : List Nat) (block : List Nat) : List Nat :=
  let w := extendSchedule 48 block
  let st := sha256Rounds w sha256K h
  List.zipWith (fun x y => (x + y) % 2 ^ 32) h st

/-- Fold `n` consecutive 16-word blocks into the state. -/
def sha256Blocks : Nat → List Nat → List Nat → List Nat
  | 0, _, h => h
  | n + 1, ws, h => sha256Blocks n (ws.drop 16) (sha256Compress h (ws.take 16))

/-- SHA-256 of a byte list, as the list of eight 32-bit state words. -/
def sha256 (msg : List Nat) : List Nat :=
  let padded := sha256Pad msg
  sha256Blocks (padded.length / 64) (toWordsBE padded) sha256H0

def hexDigitChar (n : Nat) : Char :=
  if n < 10 then Char.ofNat (48 + n) else Char.ofNat (87 + n)

/-- Lowercase 8-digit hex rendering of a 32-bit word. -/
def toHex8 (w : Nat) : String :=
  String.mk ((List.range 8).map (fun i => hexDigitChar (w / 16 ^ (7 - i) % 16)))

/-- `hashlib.sha256(bytes).hexdigest()`. -/
def sha256Hex (msg : List Nat) : String :=
  String.join ((sha256 msg).map toHex8)

/-- UTF-8 bytes of a string (Python's `str.encode()`). -/
def utf8Bytes (s : String) : List Nat :=
  (s.data.flatMap String.utf8EncodeChar).map (fun b => b.toNat)


/-! ## AI service and AI case creation (`app/services/ai_service.py`,
`generate_ai_case_job` in `app/jobs/case_generator.py`) -/

/-- The parsed JSON the verdict generator model returns (`confidence` is `none` when
absent or not a number in the reply). -/
structure VerdictResponse where
  verdict : String
  reasoning : String
  confidence : Option ℚ
  deriving DecidableEq, Repr

/-- The result dict of `AIService.generate_verdict`. -/
structure VerdictData where
  verdict : String
  reasoning : String
  confidence : ℚ
  verdictHash : String
  deriving DecidableEq, Repr

/-- Python's `str.upper()` on the character list. -/
def pyUpper (s : String) : String :=
  String.mk (s.data.map Char.toUpper)

/-- Python's `str.strip()`: whitespace removed from both ends. -/
def pyStrip (s : String) : String :=
  String.mk ((((s.data.dropWhile Char.isWhitespace).reverse).dropWhile
    Char.isWhitespace).reverse)

/-- `AIService.generate_verdict`: normalise the verdict (`.upper().strip()`), default
an absent or out-of-range confidence to 0.7, and seal
`SHA256(verdict ++ "|" ++ reasoning)`. -/
def generateVerdict (resp : VerdictResponse) : Except String VerdictData :=
  if pyStrip (pyUpper resp.verdict) ≠ "YES" ∧ pyStrip (pyUpper resp.verdict) ≠ "NO" then
    .error ("Invalid verdict: " ++ pyStrip (pyUpper resp.verdict))
  else
    .ok { verdict := pyStrip (pyUpper resp.verdict)
          reasoning := resp.reasoning
          confidence :=
            match resp.confidence with
            | some conf => if 0 ≤ conf ∧ conf ≤ 1 then conf else 7 / 10
            | none => 7 / 10
          verdictHash := sha256Hex (utf8Bytes
            (pyStrip (pyUpper resp.verdict) ++ "|" ++ resp.reasoning)) }

/-- The dict assembled by `AIService.generate_case_with_verdict`. -/
structure CaseGenData where
  title : String
  context : String
  verdict : String
  verdictReasoning : String
  verdictConfidence : ℚ
  verdictHash : String
  closesAt : Nat
  status : String
  deriving DecidableEq, Repr

/-- `AIService.generate_case_with_verdict`: bundle the generated case text with the
pre-generated verdict; `closes_at = now + 24h`, `status = "active"`. -/
def generateCaseWithVerdict (title context : String) (vd : VerdictData) (now : Nat) :
    CaseGenData :=
  { title := title, context := context, verdict := vd.verdict
    verdictReasoning := vd.reasoning, verdictConfidence := vd.confidence
    verdictHash := vd.verdictHash, closesAt := now + 86400, status := "active" }

/-- The persistence step of `generate_ai_case_job`: the case row is created from the
pre-computed bundle; `btx` is the best-effort blockchain commitment result. -/
def generateAiCaseJob (db : DB) (cd : CaseGenData) (btx : Option String) (now newId : Nat) :
    DB :=
  let c : CaseRow :=
    { id := newId, title := cd.title, context := cd.context, status := cd.status
      aiVerdict := some cd.verdict, aiVerdictReasoning := some cd.verdictReasoning
      aiConfidence := some cd.verdictConfidence, verdictHash := some cd.verdictHash
      blockchainTxHash := btx, yesVotes := 0, noVotes := 0, totalParticipants := 0
      rewardPool := none, createdById := none, isAiGenerated := true
      createdAt := now, closesAt := some cd.closesAt, closedAt := none }
  { db with cases := db.cases ++ [c] }

/-! ## Read paths (`get_case` and `get_ai_verdict` in `app/routes/cases.py`) -/

/-- `UserBasicInfo` in the response models. -/
structure UserBasicInfo where
  id : Nat
  name : String
  totalPoints : ℚ
  deriving DecidableEq, Repr

/-- `ArgumentResponse` in the response models. -/
structure ArgumentResponse where
  id : Nat
  caseId : Nat
  user : Option UserBasicInfo
  content : String
  side : String
  votes : Int
  isTop3 : Bool
  createdAt : Nat
  isLikedByUser : Bool
  deriving DecidableEq, Repr

/-- The `user_vote` dict embedded in a case detail response. -/
structure UserVoteInfo where
  side : String
  votedAt : Nat
  likedArguments : List Nat
  hasSubmittedArg : Bool
  deriving DecidableEq, Repr

/-- `CaseDetailResponse` in the response models. -/
structure CaseDetailResponse where
  id : Nat
  title : String
  context : String
  status : String
  aiVerdict : Option String
  aiVerdictReasoning : Option String
  aiConfidence : Option ℚ
  yesVotes : Nat
  noVotes : Nat
  totalParticipants : Nat
  isAiGenerated : Bool
  createdAt : Nat
  closesAt : Option Nat
  closedAt : Option Nat
  creator : Option UserBasicInfo
  arguments : List ArgumentResponse
  userVote : Option UserVoteInfo
  blockchainTxHash : Option String
  verdictHash : Option String
  deriving DecidableEq, Repr

def userInfo (db : DB) (uid : Nat) : Option UserBasicInfo :=
  (db.findUser uid).map (fun u => { id := u.id, name := u.name, totalPoints := u.totalPoints })

/-- The `get_case` route handler.  `argOrd` is the `order votes desc` query result for
the case's arguments.  Verdict fields are nulled unless `status == "closed"`. -/
def getCaseResponse (db : DB) (caseId : Nat) (currentUser : Option Nat)
    (argOrd : List ArgumentRow) : Except (Nat × String) CaseDetailResponse :=
  match db.findCase caseId with
  | none => .error (404, "Case not found")
  | some c =>
    let likedIds :=
      match currentUser with
      | some uid => (match db.findUserVote uid caseId with
        | some v => v.likedArguments
        | none => [])
      | none => []
    let args := argOrd.map (fun a =>
      ({ id := a.id, caseId := a.caseId, user := userInfo db a.userId, content := a.content
         side := a.side, votes := a.votes, isTop3 := a.isTop3, createdAt := a.createdAt
         isLikedByUser := a.id ∈ likedIds } : ArgumentResponse))
    let uv : Option UserVoteInfo :=
      match currentUser with
      | some uid => (db.findUserVote uid caseId).map (fun v =>
          { side := v.side, votedAt := v.votedAt, likedArguments := v.likedArguments
            hasSubmittedArg := v.hasSubmittedArg })
      | none => none
    let creator :=
      match c.createdById with
      | some uid => userInfo db uid
      | none => none
    .ok { id := c.id, title := c.title, context := c.context, status := c.status
          aiVerdict := if c.status = "closed" then c.aiVerdict else none
          aiVerdictReasoning := if c.status = "closed" then c.aiVerdictReasoning else none
          aiConfidence := if c.status = "closed" then c.aiConfidence else none
          yesVotes := c.yesVotes, noVotes := c.noVotes
          totalParticipants := c.totalParticipants, isAiGenerated := c.isAiGenerated
          createdAt := c.createdAt, closesAt := c.closesAt, closedAt := c.closedAt
          creator := creator, arguments := args, userVote := uv
          blockchainTxHash := c.blockchainTxHash, verdictHash := c.verdictHash }

/-- The response dict of the `get_ai_verdict` route. -/
structure AiVerdictResponse where
  caseId : Nat
  verdict : Option String
  reasoning : Option String
  confidence : Option ℚ
  verdictHash : Option String
  blockchainTxHash : Option String
  yesVotes : Nat
  noVotes : Nat
  closedAt : Option Nat
  deriving DecidableEq, Repr

/-- The `get_ai_verdict` route handler: 404 when absent, 403 unless closed. -/
def getAiVerdict (db : DB) (caseId : Nat) : Except (Nat × String) AiVerdictResponse :=
  match db.findCase caseId with
  | none => .error (404, "Case not found")
  | some c =>
    if c.status ≠ "closed" then .error (403, "AI verdict only available for closed cases")
    else .ok { caseId := c.id, verdict := c.aiVerdict, reasoning := c.aiVerdictReasoning
               confidence := c.aiConfidence, verdictHash := c.verdictHash
               blockchainTxHash := c.blockchainTxHash, yesVotes := c.yesVotes
               noVotes := c.noVotes, closedAt := c.closedAt }

/-! ## The operations of the system as a transition relation -/

/-- One step of the system: any successful participation-gate call, any job run, a
case creation, or a reward claim. -/
inductive Step : DB → DB → Prop where
  | voteCase {db db' : DB} {cid uid : Nat} {side : VoteSide} {now : Nat}
      {c : CaseRow} {v : UserVoteRow}
      (h : voteOnCase db cid uid side now = .ok (db', c, v)) : Step db db'
  | submitArg {db db' : DB} {cid uid : Nat} {content : String} {side : VoteSide}
      {now newId : Nat} {a : ArgumentRow}
      (h : submitArgument db cid uid content side now newId = .ok (db', a)) : Step db db'
  | likeArg {db db' : DB} {aid uid cid : Nat} {a : ArgumentRow}
      (h : voteOnArgument db aid uid cid = .ok (db', a)) : Step db db'
  | unlikeArg {db db' : DB} {aid uid cid : Nat} {a : ArgumentRow}
      (h : unvoteArgument db aid uid cid = .ok (db', a)) : Step db db'
  | newCase {db db' : DB} {title context : String} {uid : Nat} {ai : Bool} {now newId : Nat}
      (h : db' = (createCase db title context uid ai now newId).1) : Step db db'
  | aiCase {db db' : DB} {cd : CaseGenData} {btx : Option String} {now newId : Nat}
      (h : db' = generateAiCaseJob db cd btx now newId) : Step db db'
  | sweep {db db' : DB} {now : Nat} {ords ordsR : Nat → List ArgumentRow}
      (h : db' = closeExpiredCasesJob db now ords ordsR) : Step db db'
  | monitor {db db' : DB} {ledger : String → TxStatus} {now : Nat}
      (h : db' = monitorTransactionsJob db ledger now) : Step db db'
  | claim {db db' : DB} {rid : Nat} {tx : String} {now : Nat}
      (h : db' = markRewardClaimed db rid tx now) : Step db db'

/-- Any finite sequence of operations. -/
def Reachable : DB → DB → Prop := Relation.ReflTransGen Step

/-- Uniqueness of the `(user, case)` vote key across the store. -/
def votePairsUnique (db : DB) : Prop := (db.userVotes.map votePair).Nodup

/-! ## Concrete stores used as inputs of the claim theorems and witnesses -/

/-- The concrete failing input for claim C1: an active case past its deadline with a
positive pool and one correct voter. -/
def caseC1 : CaseRow :=
  { id := 1, title := "t", context := "ctx", status := "active", aiVerdict := some "YES"
    aiVerdictReasoning := some "r", aiConfidence := some (9 / 10), verdictHash := some "h"
    blockchainTxHash := none, yesVotes := 1, noVotes := 0, totalParticipants := 1
    rewardPool := some 1000, createdById := some 7, isAiGenerated := false
    createdAt := 0, closesAt := some 500000, closedAt := none }

def dbC1 : DB :=
  { cases := [caseC1]
    userVotes := [{ userId := 2, caseId := 1, side := "YES", votedAt := 10
                    likedArguments := [], hasSubmittedArg := false }]
    arguments := [], argumentVotes := [], rewards := []
    users := [{ id := 2, name := "u", totalPoints := 0 }] }

def rewardC3 : RewardRow :=
  { id := 5, userId := 2, caseId := 1, amount := 120, rtype := ["winning_voter"]
    status := "processing", blockchainTxHash := some "tx5", claimedAt := some 100
    completedAt := none, createdAt := 50, updatedAt := some 100 }

def dbC3 : DB :=
  { cases := [], userVotes := [], arguments := [], argumentVotes := []
    rewards := [rewardC3], users := [{ id := 2, name := "u", totalPoints := 30 }] }

def argC10 : ArgumentRow :=
  { id := 9, caseId := 4, userId := 3, content := "arg", side := "NO", votes := 2
    isTop3 := true, createdAt := 20 }

/-- A closed case whose top-flagged argument still carries a like. -/
def dbC10 : DB :=
  { cases := [{ id := 4, title := "t", context := "ctx", status := "closed"
                aiVerdict := some "NO", aiVerdictReasoning := some "r"
                aiConfidence := some (1 / 2), verdictHash := some "h"
                blockchainTxHash := none, yesVotes := 1, noVotes := 1
                totalParticipants := 2, rewardPool := some 10, createdById := none
                isAiGenerated := true, createdAt := 0, closesAt := some 30
                closedAt := some 40 }]
    userVotes := [{ userId := 8, caseId := 4, side := "NO", votedAt := 5
                    likedArguments := [9], hasSubmittedArg := false }]
    arguments := [argC10]
    argumentVotes := [{ userId := 8, argumentId := 9 }]
    rewards := [], users := [] }

def caseC4 : CaseRow :=
  { id := 2, title := "t", context := "ctx", status := "active", aiVerdict := some "NO"
    aiVerdictReasoning := some "r", aiConfidence := some (3 / 5), verdictHash := some "h"
    blockchainTxHash := none, yesVotes := 0, noVotes := 0, totalParticipants := 0
    rewardPool := some 100, createdById := none, isAiGenerated := true
    createdAt := 0, closesAt := some 1000, closedAt := none }

def voteC4 : UserVoteRow :=
  { userId := 5, caseId := 2, side := "NO", votedAt := 100, likedArguments := []
    hasSubmittedArg := false }

/-- An active case no one has voted on yet. -/
def dbC4 : DB :=
  { cases := [caseC4], userVotes := [], arguments := [], argumentVotes := []
    rewards := [], users := [] }

/-- The same case after user 5 voted. -/
def dbC4v : DB :=
  { cases := [caseC4], userVotes := [voteC4], arguments := [], argumentVotes := []
    rewards := [], users := [] }

def caseC5 : CaseRow :=
  { id := 7, title := "t", context := "ctx", status := "active", aiVerdict := some "YES"
    aiVerdictReasoning := some "r", aiConfidence := some (1 / 2), verdictHash := some "h"
    blockchainTxHash := none, yesVotes := 1, noVotes := 0, totalParticipants := 1
    rewardPool := some 100, createdById := none, isAiGenerated := true
    createdAt := 0, closesAt := some 1000, closedAt := none }

def argC5 : ArgumentRow :=
  { id := 14, caseId := 7, userId := 9, content := "a4", side := "NO", votes := 0
    isTop3 := false, createdAt := 8 }

/-- User 6 already holds three likes on case 7 and now targets a fourth argument. -/
def dbC5 : DB :=
  { cases := [caseC5]
    userVotes := [{ userId := 6, caseId := 7, side := "YES", votedAt := 1
                    likedArguments := [11, 12, 13], hasSubmittedArg := false }]
    arguments := [{ id := 11, caseId := 7, userId := 9, content := "a1", side := "YES"
                    votes := 1, isTop3 := false, createdAt := 2 },
                  { id := 12, caseId := 7, userId := 9, content := "a2", side := "YES"
                    votes := 1, isTop3 := false, createdAt := 3 },
                  { id := 13, caseId := 7, userId := 9, content := "a3", side := "NO"
                    votes := 1, isTop3 := false, createdAt := 4 }, argC5]
    argumentVotes := [{ userId := 6, argumentId := 11 }, { userId := 6, argumentId := 12 },
                      { userId := 6, argumentId := 13 }]
    rewards := [], users := [] }

def argC7a : ArgumentRow :=
  { id := 101, caseId := 1, userId := 6, content := "b1", side := "YES", votes := 9
    isTop3 := true, createdAt := 1 }

def argC7b : ArgumentRow :=
  { id := 102, caseId := 1, userId := 7, content := "b2", side := "NO", votes := 8
    isTop3 := true, createdAt := 2 }

def argC7c : ArgumentRow :=
  { id := 103, caseId := 1, userId := 8, content := "b3", side := "YES", votes := 7
    isTop3 := true, createdAt := 3 }

/-- The closed case of the reward scenario: pool 1000, verdict YES, 3 YES-voters,
2 NO-voters, three top-3 arguments, 50 participants (below the creator threshold). -/
def caseC7 : CaseRow :=
  { id := 1, title := "t", context := "ctx", status := "closed", aiVerdict := some "YES"
    aiVerdictReasoning := some "r", aiConfidence := some (4 / 5), verdictHash := some "h"
    blockchainTxHash := none, yesVotes := 3, noVotes := 2, totalParticipants := 50
    rewardPool := some 1000, createdById := some 10, isAiGenerated := false
    createdAt := 0, closesAt := some 100, closedAt := some 100 }

def dbC7 : DB :=
  { cases := [caseC7]
    userVotes := [{ userId := 1, caseId := 1, side := "YES", votedAt := 1
                    likedArguments := [], hasSubmittedArg := false },
                  { userId := 2, caseId := 1, side := "YES", votedAt := 2
                    likedArguments := [], hasSubmittedArg := false },
                  { userId := 3, caseId := 1, side := "YES", votedAt := 3
                    likedArguments := [], hasSubmittedArg := false },
                  { userId := 4, caseId := 1, side := "NO", votedAt := 4
                    likedArguments := [], hasSubmittedArg := false },
                  { userId := 5, caseId := 1, side := "NO", votedAt := 5
                    likedArguments := [], hasSubmittedArg := false }]
    arguments := [argC7a, argC7b, argC7c]
    argumentVotes := []
    rewards := []
    users := [{ id := 1, name := "u1", totalPoints := 0 },
              { id := 2, name := "u2", totalPoints := 0 },
              { id := 3, name := "u3", totalPoints := 0 },
              { id := 4, name := "u4", totalPoints := 0 },
              { id := 5, name := "u5", totalPoints := 0 },
              { id := 6, name := "u6", totalPoints := 0 },
              { id := 7, name := "u7", totalPoints := 0 },
              { id := 8, name := "u8", totalPoints := 0 },
              { id := 10, name := "creator", totalPoints := 0 }] }

def caseC2 : CaseRow :=
  { id := 1, title := "t", context := "ctx", status := "active", aiVerdict := some "YES"
    aiVerdictReasoning := some "r", aiConfidence := some (1 / 2), verdictHash := some "h"
    blockchainTxHash := none, yesVotes := 0, noVotes := 0, totalParticipants := 0
    rewardPool := some 100, createdById := none, isAiGenerated := true
    createdAt := 0, closesAt := some 500000, closedAt := none }

def argC2a : ArgumentRow :=
  { id := 1, caseId := 1, userId := 21, content := "c1", side := "YES", votes := 5
    isTop3 := false, createdAt := 1 }

def argC2b : ArgumentRow :=
  { id := 2, caseId := 1, userId := 22, content := "c2", side := "NO", votes := 5
    isTop3 := false, createdAt := 2 }

def argC2c : ArgumentRow :=
  { id := 3, caseId := 1, userId := 23, content := "c3", side := "YES", votes := 3
    isTop3 := false, createdAt := 10 }

def argC2d : ArgumentRow :=
  { id := 4, caseId := 1, userId := 24, content := "c4", side := "NO", votes := 3
    isTop3 := false, createdAt := 20 }

/-- An expired case with a like-count tie (3 apiece) exactly at the top-3 cut. -/
def dbC2 : DB :=
  { cases := [caseC2], userVotes := [], arguments := [argC2a, argC2b, argC2c, argC2d]
    argumentVotes := [], rewards := [], users := [] }

/-- A legal answer to the sweep's `order votes desc` query on `dbC2`: the store may
return the two tied arguments in either order, here the later-created one first. -/
def ordC2 : List ArgumentRow := [argC2a, argC2b, argC2d, argC2c]

/-- The parsed model reply of the C8 witness (lowercase verdict, no confidence). -/
def respC8 : VerdictResponse :=
  { verdict := "yes", reasoning := "because", confidence := none }

def vdC8 : VerdictData :=
  { verdict := "YES", reasoning := "because", confidence := 7 / 10
    verdictHash := sha256Hex (utf8Bytes ("YES" ++ "|" ++ "because")) }

def dbC8 : DB :=
  { cases := [], userVotes := [], arguments := [], argumentVotes := [], rewards := []
    users := [] }

def caseC9 : CaseRow :=
  { id := 3, title := "t", context := "ctx", status := "active"
    aiVerdict := some "YES", aiVerdictReasoning := some "secret"
    aiConfidence := some (4 / 5), verdictHash := some "h", blockchainTxHash := none
    yesVotes := 0, noVotes := 0, totalParticipants := 0, rewardPool := some 10
    createdById := none, isAiGenerated := true, createdAt := 0, closesAt := some 100
    closedAt := none }

def dbC9 : DB :=
  { cases := [caseC9], userVotes := [], arguments := [], argumentVotes := []
    rewards := [], users := [] }

/-! # Theorems

First a layer of bookkeeping lemmas about the keyed store operations, then one
theorem per specification claim (with a closed witness where the theorem carries
hypotheses). -/

set_option maxRecDepth 100000 in
/-- NIST test vector, pinning the SHA-256 model down. -/
theorem sha256Hex_abc :
    sha256Hex (utf8Bytes "abc") =
      "ba7816bf8f01cfea414140de5dae2223b00361a396177a9cb410ff61f20015ad" := by
  decide

theorem findByKey_append_of_none {α κ : Type} [DecidableEq κ] (key : α → κ) (k : κ)
    (l₁ l₂ : List α) (h : findByKey key k l₁ = none) :
    findByKey key k (l₁ ++ l₂) = findByKey key k l₂ := by
  induction l₁ with
  | nil => rfl
  | cons x xs ih =>
    simp only [findByKey, List.find?_cons, List.cons_append] at *
    by_cases hx : key x = k
    · simp [hx] at h
    · simp only [hx, decide_eq_true_eq, if_neg] at *
      simp only [decide_eq_false hx, Bool.false_eq_true, if_false] at h ⊢
      exact ih h

theorem DB.findCase_updateCase (db : DB) (cid : Nat) (f : CaseRow → CaseRow)
    (hf : ∀ c, (f c).id = c.id) :
    (db.updateCase cid f).findCase cid = (db.findCase cid).map f :=
  findByKey_updateByKey_same _ _ _ _ hf

theorem DB.findUserVote_updateUserVote (db : DB) (uid cid : Nat)
    (f : UserVoteRow → UserVoteRow) (hf : ∀ v, votePair (f v) = votePair v) :
    (db.updateUserVote uid cid f).findUserVote uid cid = (db.findUserVote uid cid).map f :=
  findByKey_updateByKey_same _ _ _ _ hf

theorem DB.findArgument_updateArgument (db : DB) (aid : Nat) (f : ArgumentRow → ArgumentRow)
    (hf : ∀ a, (f a).id = a.id) :
    (db.updateArgument aid f).findArgument aid = (db.findArgument aid).map f :=
  findByKey_updateByKey_same _ _ _ _ hf

theorem DB.findReward_updateReward (db : DB) (rid : Nat) (f : RewardRow → RewardRow)
    (hf : ∀ r, (f r).id = r.id) :
    (db.updateReward rid f).findReward rid = (db.findReward rid).map f :=
  findByKey_updateByKey_same _ _ _ _ hf

theorem DB.findUser_updateUser (db : DB) (uid : Nat) (f : UserRow → UserRow)
    (hf : ∀ u, (f u).id = u.id) :
    (db.updateUser uid f).findUser uid = (db.findUser uid).map f :=
  findByKey_updateByKey_same _ _ _ _ hf

theorem markTop3_rewards (db : DB) (ids : List Nat) : (markTop3 db ids).rewards = db.rewards := by
  unfold markTop3
  split <;> rfl

theorem markTop3_userVotes (db : DB) (ids : List Nat) :
    (markTop3 db ids).userVotes = db.userVotes := by
  unfold markTop3
  split <;> rfl

theorem markTop3_cases (db : DB) (ids : List Nat) : (markTop3 db ids).cases = db.cases := by
  unfold markTop3
  split <;> rfl

/-- The `calculate_rewards` status guard: a case object whose `status` field is not
`"closed"` is rejected before anything else is looked at. -/
theorem calculateRewards_not_closed (db : DB) (c : CaseRow) (ord : List ArgumentRow)
    (hc : c.status ≠ "closed") :
    calculateRewards db c ord = .error "Case must be closed to calculate rewards" := by
  unfold calculateRewards
  rw [if_pos hc]

theorem closeCaseUpdate_rewards (db : DB) (c : CaseRow) (ord : List ArgumentRow)
    (now : Nat) : (closeCaseUpdate db c ord now).rewards = db.rewards :=
  markTop3_rewards db _

theorem closeCaseUpdate_userVotes (db : DB) (c : CaseRow) (ord : List ArgumentRow)
    (now : Nat) : (closeCaseUpdate db c ord now).userVotes = db.userVotes :=
  markTop3_userVotes db _

/-- Closing one expired case never touches the rewards table: the sweep passes the
stale pre-update row (status still `"active"`) to `calculate_rewards`. -/
theorem closeOneCase_rewards (db : DB) (c : CaseRow) (ord ordR : List ArgumentRow)
    (now : Nat) (hc : c.status ≠ "closed") :
    (closeOneCase db c ord ordR now).rewards = db.rewards := by
  unfold closeOneCase
  simp only [calculateRewards_not_closed _ _ _ hc]
  exact closeCaseUpdate_rewards _ _ _ _

theorem expiredCases_status (db : DB) (now : Nat) (c : CaseRow)
    (hc : c ∈ expiredCases db now) : c.status = "active" := by
  unfold expiredCases at hc
  have := List.of_mem_filter hc
  simp only [Bool.and_eq_true, beq_iff_eq] at this
  exact this.1

/-- The whole expiry sweep leaves the rewards table exactly as it found it. -/
theorem closeExpiredCasesJob_rewards (db : DB) (now : Nat)
    (ords ordsR : Nat → List ArgumentRow) :
    (closeExpiredCasesJob db now ords ordsR).rewards = db.rewards := by
  unfold closeExpiredCasesJob
  have key : ∀ (l : List CaseRow) (acc : DB), (∀ c ∈ l, c.status = "active") →
      (l.foldl (fun acc c => closeOneCase acc c (ords c.id) (ordsR c.id) now) acc).rewards =
        acc.rewards := by
    intro l
    induction l with
    | nil => intro acc _; rfl
    | cons x xs ih =>
      intro acc hl
      simp only [List.foldl_cons]
      rw [ih _ (fun c hc => hl c (List.mem_cons_of_mem _ hc)),
        closeOneCase_rewards _ _ _ _ _ (by rw [hl x (List.mem_cons_self _ _)]; decide)]
  exact key _ db (fun c hc => expiredCases_status db now c hc)

/-- Claim C1: the spec says the expiry sweep closes every due case with a positive
pool and at least one winning voter and persists one `Pending` reward row per rewarded
user.  The code closes the case but can never create reward rows: the sweep hands
`calculate_rewards` the case object it read *before* the status update, so the
function's own `status != "closed"` guard raises, the exception is swallowed, and
reward creation is unreachable.  Shown on a concrete input satisfying every premise
of the claim, together with the general fact that the sweep leaves the rewards table
untouched on every database. -/
theorem closeExpiredCasesJob_closes_but_never_rewards :
    (dbC1.caseStatus 1 = some "active" ∧ caseC1.closesAt = some 500000 ∧
      (500000 : Nat) ≤ 1000000 ∧ caseC1.rewardPool = some 1000 ∧
      caseC1.aiVerdict = some "YES" ∧
      (dbC1.userVotes.filter (fun v => v.caseId = 1 ∧ v.side = "YES")).length = 1) ∧
    (closeExpiredCasesJob dbC1 1000000 (fun _ => []) (fun _ => [])).caseStatus 1 =
      some "closed" ∧
    (closeExpiredCasesJob dbC1 1000000 (fun _ => []) (fun _ => [])).rewards = [] ∧
    (∀ (db : DB) (now : Nat) (ords ordsR : Nat → List ArgumentRow),
      (closeExpiredCasesJob db now ords ordsR).rewards = db.rewards) := by
  refine ⟨by decide, by decide, ?_, closeExpiredCasesJob_rewards⟩
  rw [closeExpiredCasesJob_rewards]
  rfl

theorem DB.rewardStatus_updateUser (db : DB) (uid : Nat) (g : UserRow → UserRow)
    (rid : Nat) : (db.updateUser uid g).rewardStatus rid = db.rewardStatus rid := rfl

/-- Claim C3: a `Processing` reward examined by the settlement monitor is completed and
credited when the ledger confirms the transaction with at least one confirmation, is
failed without credit when the ledger does not know the transaction and the last
update is over 24 hours old, and is left untouched when the transaction is unknown
but still young. -/
theorem monitorOneReward_settles_processing (db : DB) (r : RewardRow) (u : UserRow)
    (tx : TxStatus) (now t : Nat)
    (_hst : r.status = "processing")
    (hr : db.findReward r.id = some r)
    (hu : db.findUser r.userId = some u)
    (hup : r.updatedAt = some t) :
    (tx.status = "confirmed" → 1 ≤ tx.confirmations →
      (monitorOneReward db r tx now).rewardStatus r.id = some "completed" ∧
      (monitorOneReward db r tx now).userPoints r.userId = some (u.totalPoints + r.amount)) ∧
    (tx.status = "not_found" → 86400 < now - t →
      (monitorOneReward db r tx now).rewardStatus r.id = some "failed" ∧
      (monitorOneReward db r tx now).userPoints r.userId = some u.totalPoints) ∧
    (tx.status = "not_found" → now - t ≤ 86400 →
      monitorOneReward db r tx now = db) := by
  refine ⟨?_, ?_, ?_⟩
  · intro htx hconf
    unfold monitorOneReward
    rw [htx, if_pos rfl, if_pos hconf]
    constructor
    · rw [DB.rewardStatus_updateUser]
      unfold DB.rewardStatus
      rw [DB.findReward_updateReward, hr]
      · rfl
      · exact fun x => rfl
    · unfold DB.userPoints
      rw [DB.findUser_updateUser]
      · show ((db.findUser r.userId).map _).map _ = _
        rw [hu]
        rfl
      · exact fun x => rfl
  · intro htx hage
    unfold monitorOneReward
    rw [htx, if_neg (by decide), if_pos rfl, hup]
    simp only
    rw [if_pos hage]
    constructor
    · unfold DB.rewardStatus
      rw [DB.findReward_updateReward, hr]
      · rfl
      · exact fun x => rfl
    · show db.userPoints r.userId = some u.totalPoints
      unfold DB.userPoints
      rw [hu]
      rfl
  · intro htx hage
    unfold monitorOneReward
    rw [htx, if_neg (by decide), if_pos rfl, hup]
    simp only
    rw [if_neg (not_lt.mpr hage)]

/-- Witness for C3 on concrete inputs: a confirmed transaction completes and credits,
a 25-hour-old unknown transaction fails without credit, a young unknown transaction
leaves the store unchanged. -/
theorem monitorOneReward_settles_processing_witness :
    ((monitorOneReward dbC3 rewardC3 ⟨"confirmed", 2⟩ 90100).rewardStatus 5 =
        some "completed" ∧
      (monitorOneReward dbC3 rewardC3 ⟨"confirmed", 2⟩ 90100).userPoints 2 =
        some (30 + 120)) ∧
    ((monitorOneReward dbC3 rewardC3 ⟨"not_found", 0⟩ 90100).rewardStatus 5 =
        some "failed" ∧
      (monitorOneReward dbC3 rewardC3 ⟨"not_found", 0⟩ 90100).userPoints 2 = some 30) ∧
    monitorOneReward dbC3 rewardC3 ⟨"not_found", 0⟩ 86500 = dbC3 :=
  ⟨(monitorOneReward_settles_processing dbC3 rewardC3 ⟨2, "u", 30⟩ ⟨"confirmed", 2⟩
      90100 100 rfl rfl rfl rfl).1 rfl (by decide),
   (monitorOneReward_settles_processing dbC3 rewardC3 ⟨2, "u", 30⟩ ⟨"not_found", 0⟩
      90100 100 rfl rfl rfl rfl).2.1 rfl (by decide),
   (monitorOneReward_settles_processing dbC3 rewardC3 ⟨2, "u", 30⟩ ⟨"not_found", 0⟩
      86500 100 rfl rfl rfl rfl).2.2 rfl (by decide)⟩

/-- Claim C10: `unvote_argument` checks only that the argument exists, belongs to the
case, and carries a like by the caller — the case status is never consulted, so the
operation succeeds on a `Closed` case too.  It deletes the like row, decrements the
counter with a floor at 0, removes the id from the liked list, and leaves the case
row untouched. -/
theorem unvoteArgument_no_status_gate (db : DB) (aid uid cid : Nat) (arg : ArgumentRow)
    (av : ArgumentVoteRow) (v : UserVoteRow)
    (ha : db.findArgument aid = some arg) (hb : arg.caseId = cid)
    (hav : db.findArgumentVote uid aid = some av)
    (hv : db.findUserVote uid cid = some v)
    (hcnt : v.likedArguments.count aid ≤ 1) :
    ∃ db2, unvoteArgument db aid uid cid =
        .ok (db2, { arg with votes := max 0 (arg.votes - 1) }) ∧
      db2.findArgument aid = some { arg with votes := max 0 (arg.votes - 1) } ∧
      db2.findArgumentVote uid aid = none ∧
      db2.findUserVote uid cid =
        some { v with likedArguments := v.likedArguments.erase aid } ∧
      aid ∉ v.likedArguments.erase aid ∧
      db2.findCase cid = db.findCase cid := by
  have hbne : ¬(arg.caseId ≠ cid) := not_not_intro hb
  have hnotmem : aid ∉ v.likedArguments.erase aid := by
    have hc := List.count_erase_self aid v.likedArguments
    have : (v.likedArguments.erase aid).count aid = 0 := by omega
    exact List.count_eq_zero.mp this
  have hvb : (unvoteBase db aid uid arg).findUserVote uid cid = some v := hv
  have hfindArg : (unvoteBase db aid uid arg).findArgument aid =
      some { arg with votes := max 0 (arg.votes - 1) } := by
    unfold unvoteBase
    rw [DB.findArgument_updateArgument]
    · show (db.findArgument aid).map _ = _
      rw [ha]
      rfl
    · exact fun x => rfl
  have hfindAV : (unvoteBase db aid uid arg).findArgumentVote uid aid = none := by
    unfold DB.findArgumentVote findByKey
    rw [List.find?_eq_none]
    intro x hx
    have hmem := List.of_mem_filter hx
    simp only [decide_not, Bool.not_eq_true', decide_eq_false_iff_not] at hmem
    simp only [likePair, decide_eq_true_eq]
    intro hk
    exact hmem ⟨congrArg Prod.fst hk, congrArg Prod.snd hk⟩
  have happ : unvoteApply db aid uid cid arg =
      if v.likedArguments ≠ [] ∧ aid ∈ v.likedArguments then
        (unvoteBase db aid uid arg).updateUserVote uid cid
          (fun w => { w with likedArguments := v.likedArguments.erase aid })
      else unvoteBase db aid uid arg := by
    unfold unvoteApply
    rw [hvb]
  have heq : unvoteArgument db aid uid cid =
      .ok (unvoteApply db aid uid cid arg, { arg with votes := max 0 (arg.votes - 1) }) := by
    unfold unvoteArgument
    rw [ha]
    simp only [hbne, if_false, hav]
  refine ⟨unvoteApply db aid uid cid arg, heq, ?_, ?_, ?_, hnotmem, ?_⟩
  · rw [happ]
    by_cases hin : v.likedArguments ≠ [] ∧ aid ∈ v.likedArguments
    · rw [if_pos hin]
      exact hfindArg
    · rw [if_neg hin]
      exact hfindArg
  · rw [happ]
    by_cases hin : v.likedArguments ≠ [] ∧ aid ∈ v.likedArguments
    · rw [if_pos hin]
      exact hfindAV
    · rw [if_neg hin]
      exact hfindAV
  · rw [happ]
    by_cases hin : v.likedArguments ≠ [] ∧ aid ∈ v.likedArguments
    · rw [if_pos hin]
      rw [DB.findUserVote_updateUserVote]
      · rw [hvb]
        rfl
      · exact fun x => rfl
    · rw [if_neg hin]
      have herase : v.likedArguments.erase aid = v.likedArguments := by
        rcases not_and_or.mp hin with h1 | h2
        · rw [not_not.mp h1]
          rfl
        · exact List.erase_of_not_mem h2
      rw [herase]
      exact hvb
  · rw [happ]
    by_cases hin : v.likedArguments ≠ [] ∧ aid ∈ v.likedArguments
    · rw [if_pos hin]
      rfl
    · rw [if_neg hin]
      rfl

/-- Witness for C10: unliking on an already-`Closed` case (with `isTop3` fixed)
succeeds and decrements the counter. -/
theorem unvoteArgument_no_status_gate_witness :
    ∃ db2, unvoteArgument dbC10 9 8 4 =
        .ok (db2, { argC10 with votes := max 0 (argC10.votes - 1) }) ∧
      db2.findArgument 9 = some { argC10 with votes := max 0 (argC10.votes - 1) } ∧
      db2.findArgumentVote 8 9 = none ∧
      db2.findUserVote 8 4 =
        some { userId := 8, caseId := 4, side := "NO", votedAt := 5
               likedArguments := List.erase [9] 9, hasSubmittedArg := false } ∧
      9 ∉ List.erase [9] 9 ∧
      db2.findCase 4 = dbC10.findCase 4 :=
  unvoteArgument_no_status_gate dbC10 9 8 4 argC10 ⟨8, 9⟩
    { userId := 8, caseId := 4, side := "NO", votedAt := 5
      likedArguments := [9], hasSubmittedArg := false }
    rfl rfl rfl rfl (by decide)

theorem userInfo_updateCase (db : DB) (cid : Nat) (f : CaseRow → CaseRow) (uid : Nat) :
    userInfo (db.updateCase cid f) uid = userInfo db uid := rfl

theorem DB.findUserVote_updateCase (db : DB) (cid : Nat) (f : CaseRow → CaseRow)
    (uid cid' : Nat) :
    (db.updateCase cid f).findUserVote uid cid' = db.findUserVote uid cid' := rfl

/-- Claim C9: for a case that is not `Closed`, both read paths return the verdict,
reasoning, and confidence as absent, and their output is identical for any two cases
differing only in those three fields (here: the same case with the fields overwritten
by arbitrary values). -/
theorem verdict_fields_hidden_until_closed (db : DB) (cid : Nat) (c : CaseRow)
    (x y : Option String) (z : Option ℚ) (u : Option Nat) (argOrd : List ArgumentRow)
    (hc : db.findCase cid = some c) (hs : c.status ≠ "closed") :
    (∀ resp, getCaseResponse db cid u argOrd = .ok resp →
      resp.aiVerdict = none ∧ resp.aiVerdictReasoning = none ∧ resp.aiConfidence = none) ∧
    getAiVerdict db cid = .error (403, "AI verdict only available for closed cases") ∧
    getCaseResponse (db.updateCase cid (fun k =>
        { k with aiVerdict := x, aiVerdictReasoning := y, aiConfidence := z })) cid u argOrd =
      getCaseResponse db cid u argOrd ∧
    getAiVerdict (db.updateCase cid (fun k =>
        { k with aiVerdict := x, aiVerdictReasoning := y, aiConfidence := z })) cid =
      getAiVerdict db cid := by
  have hc' : (db.updateCase cid (fun k =>
      { k with aiVerdict := x, aiVerdictReasoning := y, aiConfidence := z })).findCase cid =
      some { c with aiVerdict := x, aiVerdictReasoning := y, aiConfidence := z } := by
    rw [DB.findCase_updateCase, hc]
    · rfl
    · exact fun k => rfl
  refine ⟨?_, ?_, ?_, ?_⟩
  · intro resp heq
    unfold getCaseResponse at heq
    rw [hc] at heq
    simp only [Except.ok.injEq] at heq
    rw [← heq]
    simp only [if_neg hs]
    exact ⟨trivial, trivial, trivial⟩
  · unfold getAiVerdict
    rw [hc]
    simp only [if_pos hs]
  · unfold getCaseResponse
    rw [hc, hc']
    simp only [if_neg hs, userInfo_updateCase, DB.findUserVote_updateCase]
  · unfold getAiVerdict
    rw [hc, hc']
    simp only [if_pos hs]

/-- Witness for C9 on a concrete active case with a sealed verdict. -/
theorem verdict_fields_hidden_until_closed_witness :
    (∀ resp, getCaseResponse dbC9 3 none [] = .ok resp →
      resp.aiVerdict = none ∧ resp.aiVerdictReasoning = none ∧ resp.aiConfidence = none) ∧
    getAiVerdict dbC9 3 = .error (403, "AI verdict only available for closed cases") ∧
    getCaseResponse (dbC9.updateCase 3 (fun k =>
        { k with aiVerdict := some "NO", aiVerdictReasoning := some "other"
                 aiConfidence := none })) 3 none [] =
      getCaseResponse dbC9 3 none [] ∧
    getAiVerdict (dbC9.updateCase 3 (fun k =>
        { k with aiVerdict := some "NO", aiVerdictReasoning := some "other"
                 aiConfidence := none })) 3 =
      getAiVerdict dbC9 3 :=
  verdict_fields_hidden_until_closed dbC9 3 caseC9 (some "NO") (some "other") none none []
    rfl (by decide)

/-! ## How each operation shapes the `UserVote` table -/

theorem voteOnCase_ok_userVotes {db : DB} {cid uid : Nat} {side : VoteSide} {now : Nat}
    {db' : DB} {c : CaseRow} {v : UserVoteRow}
    (h : voteOnCase db cid uid side now = .ok (db', c, v)) :
    db.findUserVote uid cid = none ∧
    db'.userVotes = db.userVotes ++
      [{ userId := uid, caseId := cid, side := side.value, votedAt := now
         likedArguments := [], hasSubmittedArg := false }] := by
  unfold voteOnCase at h
  split at h
  · exact absurd h (by simp)
  · split at h
    · exact absurd h (by simp)
    · split at h
      · exact absurd h (by simp)
      · split at h
        · exact absurd h (by simp)
        next hnone =>
          simp only [Except.ok.injEq, Prod.mk.injEq] at h
          refine ⟨hnone, ?_⟩
          rw [← h.1]
          rfl

theorem submitArgument_ok_userVotes {db : DB} {cid uid : Nat} {content : String}
    {side : VoteSide} {now newId : Nat} {db' : DB} {a : ArgumentRow}
    (h : submitArgument db cid uid content side now newId = .ok (db', a)) :
    db'.userVotes = updateByKey votePair (uid, cid)
      (fun w => { w with hasSubmittedArg := true }) db.userVotes := by
  unfold submitArgument at h
  split at h
  · exact absurd h (by simp)
  · split at h
    · exact absurd h (by simp)
    · split at h
      · exact absurd h (by simp)
      · split at h
        · exact absurd h (by simp)
        · split at h
          · exact absurd h (by simp)
          · simp only [Except.ok.injEq, Prod.mk.injEq] at h
            rw [← h.1]
            rfl

theorem voteOnArgument_ok_userVotes {db : DB} {aid uid cid : Nat} {db' : DB}
    {a : ArgumentRow} (h : voteOnArgument db aid uid cid = .ok (db', a)) :
    ∃ v, db.findUserVote uid cid = some v ∧ v.likedArguments.length < 3 ∧
      db'.userVotes = updateByKey votePair (uid, cid)
        (fun w => { w with likedArguments := v.likedArguments ++ [aid] }) db.userVotes := by
  unfold voteOnArgument at h
  split at h
  · exact absurd h (by simp)
  · split at h
    · exact absurd h (by simp)
    · split at h
      · exact absurd h (by simp)
      · split at h
        · exact absurd h (by simp)
        · split at h
          · exact absurd h (by simp)
          next v0 hfound =>
            split at h
            · exact absurd h (by simp)
            · split at h
              · exact absurd h (by simp)
              next hlen =>
                simp only [Except.ok.injEq, Prod.mk.injEq] at h
                refine ⟨v0, hfound, by omega, ?_⟩
                rw [← h.1]
                rfl

theorem unvoteArgument_ok_userVotes {db : DB} {aid uid cid : Nat} {db' : DB}
    {a : ArgumentRow} (h : unvoteArgument db aid uid cid = .ok (db', a)) :
    db'.userVotes = db.userVotes ∨
    ∃ v, db.findUserVote uid cid = some v ∧
      db'.userVotes = updateByKey votePair (uid, cid)
        (fun w => { w with likedArguments := v.likedArguments.erase aid }) db.userVotes := by
  unfold unvoteArgument at h
  split at h
  · exact absurd h (by simp)
  next arg0 harg =>
    split at h
    · exact absurd h (by simp)
    · split at h
      · exact absurd h (by simp)
      · simp only [Except.ok.injEq, Prod.mk.injEq] at h
        obtain ⟨hdb, -⟩ := h
        subst hdb
        cases hm : db.findUserVote uid cid with
        | none =>
          left
          unfold unvoteApply
          rw [show (unvoteBase db aid uid arg0).findUserVote uid cid = none from hm]
          rfl
        | some v =>
          by_cases hin : v.likedArguments ≠ [] ∧ aid ∈ v.likedArguments
          · right
            refine ⟨v, rfl, ?_⟩
            unfold unvoteApply
            rw [show (unvoteBase db aid uid arg0).findUserVote uid cid = some v from hm]
            simp only [if_pos hin]
            rfl
          · left
            unfold unvoteApply
            rw [show (unvoteBase db aid uid arg0).findUserVote uid cid = some v from hm]
            simp only [if_neg hin]
            rfl

theorem createRewardRecords_userVotes (db : DB) (cid : Nat) (dists : List Distribution)
    (now : Nat) : (createRewardRecords db cid dists now).userVotes = db.userVotes := rfl

theorem closeOneCase_userVotes (db : DB) (c : CaseRow) (ord ordR : List ArgumentRow)
    (now : Nat) : (closeOneCase db c ord ordR now).userVotes = db.userVotes := by
  unfold closeOneCase
  split
  · exact closeCaseUpdate_userVotes _ _ _ _
  · split
    · exact closeCaseUpdate_userVotes _ _ _ _
    · rw [createRewardRecords_userVotes]
      exact closeCaseUpdate_userVotes _ _ _ _

theorem closeExpiredCasesJob_userVotes (db : DB) (now : Nat)
    (ords ordsR : Nat → List ArgumentRow) :
    (closeExpiredCasesJob db now ords ordsR).userVotes = db.userVotes := by
  unfold closeExpiredCasesJob
  have key : ∀ (l : List CaseRow) (acc : DB),
      (l.foldl (fun acc c => closeOneCase acc c (ords c.id) (ordsR c.id) now) acc).userVotes =
        acc.userVotes := by
    intro l
    induction l with
    | nil => intro acc; rfl
    | cons x xs ih =>
      intro acc
      simp only [List.foldl_cons]
      rw [ih, closeOneCase_userVotes]
  exact key _ db

theorem monitorOneReward_userVotes (db : DB) (r : RewardRow) (tx : TxStatus) (now : Nat) :
    (monitorOneReward db r tx now).userVotes = db.userVotes := by
  unfold monitorOneReward
  repeat' split
  all_goals rfl

theorem monitorTransactionsJob_userVotes (db : DB) (ledger : String → TxStatus)
    (now : Nat) : (monitorTransactionsJob db ledger now).userVotes = db.userVotes := by
  unfold monitorTransactionsJob
  have key : ∀ (l : List RewardRow) (acc : DB),
      (l.foldl (fun acc r => match r.blockchainTxHash with
        | some h => monitorOneReward acc r (ledger h) now
        | none => acc) acc).userVotes = acc.userVotes := by
    intro l
    induction l with
    | nil => intro acc; rfl
    | cons x xs ih =>
      intro acc
      simp only [List.foldl_cons]
      rw [ih]
      split
      · exact monitorOneReward_userVotes _ _ _ _
      · rfl
  exact key _ db

theorem findUserVote_none_pair_not_mem {db : DB} {uid cid : Nat}
    (h : db.findUserVote uid cid = none) : (uid, cid) ∉ db.userVotes.map votePair := by
  unfold DB.findUserVote findByKey at h
  rw [List.find?_eq_none] at h
  intro hm
  obtain ⟨w, hw, hwp⟩ := List.mem_map.mp hm
  exact h w hw (by rw [hwp]; exact decide_eq_true rfl)

theorem findUserVote_some_mem {db : DB} {uid cid : Nat} {v : UserVoteRow}
    (h : db.findUserVote uid cid = some v) : v ∈ db.userVotes :=
  List.mem_of_find?_eq_some h

/-- Over one step of the system the vote table either keeps its `(user, case)` key
column unchanged or extends it with one previously absent key; and the 3-like bound
on every row is preserved. -/
theorem step_userVotes_facts {d d' : DB} (h : Step d d') :
    (d'.userVotes.map votePair = d.userVotes.map votePair ∨
      ∃ p, p ∉ d.userVotes.map votePair ∧
        d'.userVotes.map votePair = d.userVotes.map votePair ++ [p]) ∧
    ((∀ w ∈ d.userVotes, w.likedArguments.length ≤ 3) →
      ∀ w' ∈ d'.userVotes, w'.likedArguments.length ≤ 3) := by
  cases h
  case voteCase =>
    rename_i hop
    obtain ⟨hnone, hshape⟩ := voteOnCase_ok_userVotes hop
    constructor
    · right
      refine ⟨_, findUserVote_none_pair_not_mem hnone, ?_⟩
      rw [hshape]
      simp [votePair]
    · intro hb w' hw'
      rw [hshape] at hw'
      rcases List.mem_append.mp hw' with hw' | hw'
      · exact hb w' hw'
      · simp only [List.mem_singleton] at hw'
        subst hw'
        simp
  case submitArg =>
    rename_i hop
    have hshape := submitArgument_ok_userVotes hop
    constructor
    · left
      rw [hshape]
      exact map_updateByKey _ _ _ _ _ (fun x => rfl)
    · intro hb w' hw'
      rw [hshape] at hw'
      rcases mem_updateByKey hw' with ⟨w, hw, hweq⟩ | hw'
      · rw [hweq]
        exact hb w hw
      · exact hb w' hw'
  case likeArg =>
    rename_i hop
    obtain ⟨v, hfound, hlen, hshape⟩ := voteOnArgument_ok_userVotes hop
    constructor
    · left
      rw [hshape]
      exact map_updateByKey _ _ _ _ _ (fun x => rfl)
    · intro hb w' hw'
      rw [hshape] at hw'
      rcases mem_updateByKey hw' with ⟨w, hw, hweq⟩ | hw'
      · rw [hweq]
        simp only [List.length_append, List.length_singleton]
        omega
      · exact hb w' hw'
  case unlikeArg =>
    rename_i aid uid cid a hop
    rcases unvoteArgument_ok_userVotes hop with hshape | ⟨v, hfound, hshape⟩
    · rw [hshape]
      exact ⟨Or.inl rfl, fun hb => hb⟩
    · constructor
      · left
        rw [hshape]
        exact map_updateByKey _ _ _ _ _ (fun x => rfl)
      · intro hb w' hw'
        rw [hshape] at hw'
        rcases mem_updateByKey hw' with ⟨w, hw, hweq⟩ | hw'
        · rw [hweq]
          have hsub := (v.likedArguments.erase_sublist aid).length_le
          have hv3 := hb v (findUserVote_some_mem hfound)
          simp only
          omega
        · exact hb w' hw'
  case newCase =>
    rename_i hop
    subst hop
    exact ⟨Or.inl rfl, fun hb => hb⟩
  case aiCase =>
    rename_i hop
    subst hop
    exact ⟨Or.inl rfl, fun hb => hb⟩
  case sweep =>
    rename_i hop
    subst hop
    rw [closeExpiredCasesJob_userVotes]
    exact ⟨Or.inl rfl, fun hb => hb⟩
  case monitor =>
    rename_i hop
    subst hop
    rw [monitorTransactionsJob_userVotes]
    exact ⟨Or.inl rfl, fun hb => hb⟩
  case claim =>
    rename_i hop
    subst hop
    exact ⟨Or.inl rfl, fun hb => hb⟩

/-- Claim C4: at most one Vote ever exists per `(user, case)` pair — uniqueness of the
pair key is preserved by every operation of the system — a second `vote_on_case` call
for the same pair fails with the duplicate-vote error (so counters are untouched), and
a first vote on an active, unexpired case creates the vote and bumps
`total_participants` and exactly the chosen side's counter by 1. -/
theorem voteOnCase_at_most_one_vote (db : DB) (cid uid : Nat) (side : VoteSide)
    (now : Nat) (c : CaseRow) (hc : db.findCase cid = some c)
    (hact : c.status = "active") (hopen : ∀ t, c.closesAt = some t → ¬t < now) :
    (∀ d d', Reachable d d' → votePairsUnique d → votePairsUnique d') ∧
    (∀ v0, db.findUserVote uid cid = some v0 →
      voteOnCase db cid uid side now = .error "User has already voted on this case") ∧
    (db.findUserVote uid cid = none →
      ∃ db' cu v, voteOnCase db cid uid side now = .ok (db', cu, v) ∧
        db'.findCase cid = some cu ∧
        cu.totalParticipants = c.totalParticipants + 1 ∧
        cu.yesVotes = (if side = .YES then c.yesVotes + 1 else c.yesVotes) ∧
        cu.noVotes = (if side = .YES then c.noVotes else c.noVotes + 1) ∧
        db'.findUserVote uid cid = some v ∧ v.side = side.value ∧
        db'.userVotes = db.userVotes ++ [v]) := by
  have hcond1 : ¬(c.status ≠ "active") := fun hne => hne hact
  have hcond2 : ¬((match c.closesAt with
      | some t => decide (t < now)
      | none => false) = true) := by
    have : (match c.closesAt with
        | some t => decide (t < now)
        | none => false) = false := by
      cases hclo : c.closesAt with
      | none => rfl
      | some t => exact decide_eq_false (hopen t hclo)
    rw [this]
    exact Bool.false_ne_true
  refine ⟨?_, ?_, ?_⟩
  · intro d d' hr
    induction hr with
    | refl => exact fun h => h
    | tail hab hbc ih =>
      intro h0
      have hmid := ih h0
      rcases (step_userVotes_facts hbc).1 with heq | ⟨p, hp, heq⟩
      · unfold votePairsUnique at *
        rw [heq]
        exact hmid
      · unfold votePairsUnique at *
        rw [heq]
        refine List.Nodup.append hmid (List.nodup_singleton p) ?_
        intro q hq hq1
        simp only [List.mem_singleton] at hq1
        subst hq1
        exact hp hq
  · intro v0 hv0
    unfold voteOnCase
    rw [hc]
    simp only [if_neg hcond1, if_neg hcond2, hv0]
  · intro hnone
    unfold voteOnCase
    rw [hc]
    simp only [if_neg hcond1, if_neg hcond2, hnone]
    refine ⟨_, _, _, rfl, ?_, ?_, ?_, ?_, ?_, rfl, ?_⟩
    · rw [DB.findCase_updateCase]
      · show (db.findCase cid).map _ = _
        rw [hc]
        rfl
      · intro k
        cases side <;> rfl
    · cases side <;> rfl
    · cases side <;> simp
    · cases side <;> simp
    · show findByKey votePair (uid, cid) (db.userVotes ++ [_]) = _
      rw [findByKey_append_of_none _ _ _ _ hnone]
      simp [findByKey, votePair]
    · rfl

/-- Witness for C4: on a concrete store the second vote by the same user is rejected
with the duplicate-vote error, and a first vote succeeds with both counters bumped. -/
theorem voteOnCase_at_most_one_vote_witness :
    voteOnCase dbC4v 2 5 VoteSide.NO 500 =
      .error "User has already voted on this case" ∧
    (∃ db' cu v, voteOnCase dbC4 2 5 VoteSide.YES 500 = .ok (db', cu, v) ∧
      db'.findCase 2 = some cu ∧
      cu.totalParticipants = caseC4.totalParticipants + 1 ∧
      cu.yesVotes =
        (if VoteSide.YES = VoteSide.YES then caseC4.yesVotes + 1 else caseC4.yesVotes) ∧
      cu.noVotes =
        (if VoteSide.YES = VoteSide.YES then caseC4.noVotes else caseC4.noVotes + 1) ∧
      db'.findUserVote 5 2 = some v ∧ v.side = VoteSide.YES.value ∧
      db'.userVotes = dbC4.userVotes ++ [v]) :=
  ⟨(voteOnCase_at_most_one_vote dbC4v 2 5 VoteSide.NO 500 caseC4 rfl rfl
      (by intro t ht; simp [caseC4] at ht; omega)).2.1 voteC4 rfl,
   (voteOnCase_at_most_one_vote dbC4 2 5 VoteSide.YES 500 caseC4 rfl rfl
      (by intro t ht; simp [caseC4] at ht; omega)).2.2 rfl⟩


/-- Claim C5: a user's liked set on a case never exceeds size 3 under any sequence of
operations, and a `vote_on_argument` call by a user already holding 3 recorded likes
(targeting an argument they have not liked, the duplicate check coming first in the
source) fails with the like-limit error, leaving counters and the liked set unchanged
(the call returns before any write). -/
theorem likeArgument_limit (db : DB) (aid uid cid : Nat) (arg : ArgumentRow)
    (c : CaseRow) (v : UserVoteRow)
    (ha : db.findArgument aid = some arg) (hb : arg.caseId = cid)
    (hc : db.findCase cid = some c) (hact : c.status = "active")
    (hv : db.findUserVote uid cid = some v)
    (hnl : db.findArgumentVote uid aid = none)
    (h3 : 3 ≤ v.likedArguments.length) :
    voteOnArgument db aid uid cid = .error "User can only like 3 arguments per case" ∧
    (∀ d d', Reachable d d' → (∀ w ∈ d.userVotes, w.likedArguments.length ≤ 3) →
      ∀ w' ∈ d'.userVotes, w'.likedArguments.length ≤ 3) := by
  constructor
  · have hbne : ¬(arg.caseId ≠ cid) := not_not_intro hb
    have hsne : ¬(c.status ≠ "active") := fun hne => hne hact
    unfold voteOnArgument
    rw [ha]
    simp only [hbne, if_false, hc, hsne, hv, hnl, if_pos h3]
  · intro d d' hr
    induction hr with
    | refl => exact fun h => h
    | tail hab hbc ih =>
      intro h0
      exact (step_userVotes_facts hbc).2 (ih h0)

/-- Witness for C5: the fourth like on a concrete store is rejected with the
like-limit error. -/
theorem likeArgument_limit_witness :
    voteOnArgument dbC5 14 6 7 = .error "User can only like 3 arguments per case" ∧
    (∀ d d', Reachable d d' → (∀ w ∈ d.userVotes, w.likedArguments.length ≤ 3) →
      ∀ w' ∈ d'.userVotes, w'.likedArguments.length ≤ 3) :=
  likeArgument_limit dbC5 14 6 7 argC5 caseC5
    { userId := 6, caseId := 7, side := "YES", votedAt := 1
      likedArguments := [11, 12, 13], hasSubmittedArg := false }
    rfl rfl rfl rfl rfl rfl (by decide)

/-- A `submit_argument` call by a voter whose `has_submitted_arg` flag is set fails
with the already-submitted error (the flag is checked before the like count). -/
theorem submitArgument_already (db2 : DB) (cid uid : Nat) (content2 : String)
    (side2 : VoteSide) (now2 newId2 : Nat) (c2 : CaseRow) (v2 : UserVoteRow)
    (hc2 : db2.findCase cid = some c2) (hs2 : c2.status = "active")
    (hv2 : db2.findUserVote uid cid = some v2) (hsub2 : v2.hasSubmittedArg = true) :
    submitArgument db2 cid uid content2 side2 now2 newId2 =
      .error "User has already submitted an argument for this case" := by
  unfold submitArgument
  split
  next heq =>
    rw [hc2] at heq
    cases heq
  next c0 heq =>
    rw [hc2] at heq
    obtain rfl : c2 = c0 := Option.some.inj heq
    rw [if_neg (fun hne => hne hs2)]
    split
    next heqv =>
      rw [hv2] at heqv
      cases heqv
    next v0 heqv =>
      rw [hv2] at heqv
      obtain rfl : v2 = v0 := Option.some.inj heqv
      rw [if_pos hsub2]

/-- The success shape of `submit_argument` when every precondition passes. -/
theorem submitArgument_success (db : DB) (cid uid : Nat) (content : String)
    (side : VoteSide) (now newId : Nat) (c : CaseRow) (v : UserVoteRow)
    (hc : db.findCase cid = some c) (hact : c.status = "active")
    (hv : db.findUserVote uid cid = some v) (hsub : ¬v.hasSubmittedArg = true)
    (hlen : ¬v.likedArguments.length < 3) :
    submitArgument db cid uid content side now newId =
      .ok (DB.updateUserVote
        { db with arguments := db.arguments ++
            [{ id := newId, caseId := cid, userId := uid, content := content
               side := side.value, votes := 0, isTop3 := false, createdAt := now }] }
        uid cid (fun w => { w with hasSubmittedArg := true }),
        { id := newId, caseId := cid, userId := uid, content := content
          side := side.value, votes := 0, isTop3 := false, createdAt := now }) := by
  unfold submitArgument
  split
  next heq =>
    rw [hc] at heq
    cases heq
  next c0 heq =>
    rw [hc] at heq
    obtain rfl : c = c0 := Option.some.inj heq
    rw [if_neg (fun hne => hne hact)]
    split
    next heqv =>
      rw [hv] at heqv
      cases heqv
    next v0 heqv =>
      rw [hv] at heqv
      obtain rfl : v = v0 := Option.some.inj heqv
      rw [if_neg hsub, if_neg hlen]

/-- Claim C6: on an existing `Active` case, `submit_argument` succeeds exactly when the
caller has a vote, has not submitted before, and holds at least 3 likes; on success it
appends the argument and sets `has_submitted_arg`, so any second attempt fails with
the already-submitted error. -/
theorem submitArgument_gate (db : DB) (cid uid : Nat) (content : String) (side : VoteSide)
    (now newId : Nat) (c : CaseRow)
    (hc : db.findCase cid = some c) (hact : c.status = "active") :
    ((∃ res, submitArgument db cid uid content side now newId = .ok res) ↔
      (∃ v, db.findUserVote uid cid = some v ∧ v.hasSubmittedArg = false ∧
        3 ≤ v.likedArguments.length)) ∧
    (∀ db' a, submitArgument db cid uid content side now newId = .ok (db', a) →
      db'.arguments = db.arguments ++
        [{ id := newId, caseId := cid, userId := uid, content := content
           side := side.value, votes := 0, isTop3 := false, createdAt := now }] ∧
      (∀ content2 side2 now2 newId2,
        submitArgument db' cid uid content2 side2 now2 newId2 =
          .error "User has already submitted an argument for this case")) := by
  have hsne : ¬(c.status ≠ "active") := fun hne => hne hact
  constructor
  · constructor
    · rintro ⟨⟨db', a⟩, hok⟩
      unfold submitArgument at hok
      split at hok
      · exact absurd hok (by simp)
      · split at hok
        · exact absurd hok (by simp)
        · split at hok
          · exact absurd hok (by simp)
          next v hv =>
            split at hok
            · exact absurd hok (by simp)
            next hsub =>
              split at hok
              · exact absurd hok (by simp)
              next hlen => exact ⟨v, hv, by simpa using hsub, by omega⟩
    · rintro ⟨v, hv, hsub, hlen⟩
      have hsubne : ¬(v.hasSubmittedArg = true) := by
        rw [hsub]
        exact Bool.false_ne_true
      have hlenne : ¬(v.likedArguments.length < 3) := not_lt.mpr hlen
      exact ⟨_, submitArgument_success db cid uid content side now newId c v hc hact hv
        hsubne hlenne⟩
  · intro db' a hok
    unfold submitArgument at hok
    split at hok
    · exact absurd hok (by simp)
    · split at hok
      · exact absurd hok (by simp)
      · split at hok
        · exact absurd hok (by simp)
        next v hv =>
          split at hok
          · exact absurd hok (by simp)
          next hsub =>
            split at hok
            · exact absurd hok (by simp)
            next hlen =>
              simp only [Except.ok.injEq, Prod.mk.injEq] at hok
              obtain ⟨hdb, -⟩ := hok
              subst hdb
              constructor
              · rfl
              · intro content2 side2 now2 newId2
                have hv2 : (DB.updateUserVote
                    { db with arguments := db.arguments ++
                        [{ id := newId, caseId := cid, userId := uid, content := content
                           side := side.value, votes := 0, isTop3 := false
                           createdAt := now }] }
                    uid cid (fun w => { w with hasSubmittedArg := true })).findUserVote
                    uid cid = some { v with hasSubmittedArg := true } := by
                  rw [DB.findUserVote_updateUserVote]
                  · show (db.findUserVote uid cid).map _ = _
                    rw [hv]
                    rfl
                  · exact fun x => rfl
                exact submitArgument_already _ cid uid content2 side2 now2 newId2 c
                  { v with hasSubmittedArg := true } hc hact hv2 rfl

/-- Witness for C6: with three likes recorded and no prior submission the call
succeeds; the success branch of the equivalence is inhabited on a concrete store. -/
theorem submitArgument_gate_witness :
    ((∃ res, submitArgument dbC5 7 6 "my argument" VoteSide.YES 9 15 = .ok res) ↔
      (∃ v, dbC5.findUserVote 6 7 = some v ∧ v.hasSubmittedArg = false ∧
        3 ≤ v.likedArguments.length)) ∧
    (∀ db' a, submitArgument dbC5 7 6 "my argument" VoteSide.YES 9 15 = .ok (db', a) →
      db'.arguments = dbC5.arguments ++
        [{ id := 15, caseId := 7, userId := 6, content := "my argument"
           side := VoteSide.YES.value, votes := 0, isTop3 := false, createdAt := 9 }] ∧
      (∀ content2 side2 now2 newId2,
        submitArgument db' 7 6 content2 side2 now2 newId2 =
          .error "User has already submitted an argument for this case")) :=
  submitArgument_gate dbC5 7 6 "my argument" VoteSide.YES 9 15 caseC5 rfl rfl

/-! ## Sorted permutations with distinct keys are unique -/

theorem pairwise_lt_of_nodup_map {α : Type} (f : α → Int) :
    ∀ {l : List α}, l.Pairwise (fun a b => f b ≤ f a) → (l.map f).Nodup →
      l.Pairwise (fun a b => f b < f a) := by
  intro l
  induction l with
  | nil =>
    intro _ _
    exact List.Pairwise.nil
  | cons a t ih =>
    intro hs hn
    rw [List.pairwise_cons] at hs ⊢
    rw [List.map_cons, List.nodup_cons] at hn
    refine ⟨?_, ih hs.2 hn.2⟩
    intro b hb
    have hle := hs.1 b hb
    have hne : f b ≠ f a := fun heq => hn.1 (heq ▸ List.mem_map_of_mem f hb)
    omega

theorem perm_strict_sorted_eq {α : Type} (f : α → Int) :
    ∀ {l₁ l₂ : List α}, l₁.Perm l₂ → l₁.Pairwise (fun a b => f b < f a) →
      l₂.Pairwise (fun a b => f b < f a) → l₁ = l₂ := by
  intro l₁
  induction l₁ with
  | nil =>
    intro l₂ hp _ _
    exact (hp.symm.eq_nil).symm
  | cons a t ih =>
    intro l₂ hp h1 h2
    have ha2 : a ∈ l₂ := hp.mem_iff.mp (List.mem_cons_self a t)
    cases l₂ with
    | nil => exact absurd ha2 (List.not_mem_nil a)
    | cons b t₂ =>
      by_cases hab : a = b
      · subst hab
        rw [List.pairwise_cons] at h1 h2
        rw [ih hp.cons_inv h1.2 h2.2]
      · have hbt : b ∈ a :: t := hp.symm.mem_iff.mp (List.mem_cons_self b t₂)
        have hat₂ : a ∈ t₂ := by
          rcases List.mem_cons.mp ha2 with h | h
          · exact absurd h hab
          · exact h
        have hbt' : b ∈ t := by
          rcases List.mem_cons.mp hbt with h | h
          · exact absurd h.symm hab
          · exact h
        rw [List.pairwise_cons] at h1 h2
        have hlt1 := h1.1 b hbt'
        have hlt2 := h2.1 a hat₂
        omega

/-- Claim C7: for the scenario case (pool 1000, verdict YES, 3 winning voters,
three top-flagged arguments with distinct like counts, 50 participants), whatever
ordering the store returns for the argument query, `calculate_rewards` assigns each
winning voter 400/3, assigns the top arguments 150, 90, 60 in rank order, and assigns
the creator nothing. -/
theorem calculateRewards_scenario (ord : List ArgumentRow)
    (h : isArgQueryResult dbC7 1 ord) :
    ∃ rc, calculateRewards dbC7 caseC7 ord = .ok rc ∧
      ((rc.distributions.filter (fun d => d.dtype = "winning_voter")).map
        (fun d => (d.userId, d.amount))) =
        [(1, 400 / 3), (2, 400 / 3), (3, 400 / 3)] ∧
      ((rc.distributions.filter (fun d => d.dtype = "top_argument")).map
        (fun d => (d.userId, d.amount, d.rank))) =
        [(6, 150, some 1), (7, 90, some 2), (8, 60, some 3)] ∧
      rc.distributions.filter (fun d => d.dtype = "creator") = [] := by
  have hfilterEq : dbC7.arguments.filter (fun a => a.caseId = 1) =
      [argC7a, argC7b, argC7c] := by decide
  have hperm : ord.Perm [argC7a, argC7b, argC7c] := by
    have hp := h.1
    rwa [hfilterEq] at hp
  have hmapnodup : (ord.map (fun a : ArgumentRow => a.votes)).Nodup := by
    have hm := hperm.map (fun a : ArgumentRow => a.votes)
    exact hm.nodup_iff.mpr (by decide)
  have hstrict := pairwise_lt_of_nodup_map (fun a : ArgumentRow => a.votes) h.2 hmapnodup
  have hord : ord = [argC7a, argC7b, argC7c] :=
    perm_strict_sorted_eq (fun a : ArgumentRow => a.votes) hperm hstrict (by decide)
  subst hord
  refine ⟨_, rfl, ?_, ?_, ?_⟩ <;>
    norm_num +decide [dbC7, caseC7, argC7a, argC7b, argC7c, WINNING_VOTERS_PERCENTAGE,
      TOP_ARGUMENTS_PERCENTAGE, PARTICIPANTS_PERCENTAGE, CREATOR_PERCENTAGE, TOP_WEIGHTS,
      MIN_PARTICIPANTS_FOR_CREATOR, DB.findUser, findByKey, List.filter_cons,
      List.filter_nil, List.enum_cons, List.enum_nil, List.enumFrom_cons,
      List.enumFrom_nil, List.getElem?_cons_zero, List.getElem?_cons_succ,
      List.getElem?_nil, Option.getD_some]

/-- Witness for C7 at the sorted concrete ordering. -/
theorem calculateRewards_scenario_witness :
    isArgQueryResult dbC7 1 [argC7a, argC7b, argC7c] ∧
    ∃ rc, calculateRewards dbC7 caseC7 [argC7a, argC7b, argC7c] = .ok rc ∧
      ((rc.distributions.filter (fun d => d.dtype = "winning_voter")).map
        (fun d => (d.userId, d.amount))) =
        [(1, 400 / 3), (2, 400 / 3), (3, 400 / 3)] ∧
      ((rc.distributions.filter (fun d => d.dtype = "top_argument")).map
        (fun d => (d.userId, d.amount, d.rank))) =
        [(6, 150, some 1), (7, 90, some 2), (8, 60, some 3)] ∧
      rc.distributions.filter (fun d => d.dtype = "creator") = [] :=
  ⟨by decide, calculateRewards_scenario [argC7a, argC7b, argC7c] (by decide)⟩

/-- Claim C2 counterexample: the sweep's argument query orders only by `votes`
descending — no `createdAt` tie-break exists in the code — so on a store answer that
is perfectly legal for that query (a permutation sorted by votes), the later-created
of two equally-liked arguments is marked top-3 and the earlier-created one is not. -/
theorem top3_tie_ignores_createdAt_counterexample :
    isArgQueryResult dbC2 1 ordC2 ∧
    (closeExpiredCasesJob dbC2 600000 (fun _ => ordC2) (fun _ => ordC2)).argTop3 4 =
      some true ∧
    (closeExpiredCasesJob dbC2 600000 (fun _ => ordC2) (fun _ => ordC2)).argTop3 3 =
      some false ∧
    (dbC2.findArgument 3).map (fun a => a.votes) = some 3 ∧
    (dbC2.findArgument 4).map (fun a => a.votes) = some 3 ∧
    (dbC2.findArgument 3).map (fun a => a.createdAt) = some 10 ∧
    (dbC2.findArgument 4).map (fun a => a.createdAt) = some 20 := by
  refine ⟨by decide, by decide, by decide, by decide, by decide, by decide, by decide⟩

theorem closeOneCase_arguments (db : DB) (c : CaseRow) (ord ordR : List ArgumentRow)
    (now : Nat) : (closeOneCase db c ord ordR now).arguments =
      (markTop3 db ((ord.take 3).map (fun a => a.id))).arguments := by
  unfold closeOneCase
  split
  · rfl
  · split
    · rfl
    · rfl

/-- Every surviving row of `markTop3` comes from an original row with the same id,
votes and case, marked exactly when it was already marked or its id is in the list. -/
theorem markTop3_row_origin {db : DB} {ids : List Nat} {b : ArgumentRow}
    (hb : b ∈ (markTop3 db ids).arguments) :
    ∃ a ∈ db.arguments, b.id = a.id ∧ b.votes = a.votes ∧ b.caseId = a.caseId ∧
      (b.isTop3 = true ↔ (a.isTop3 = true ∨ a.id ∈ ids)) := by
  unfold markTop3 at hb
  by_cases hids0 : ids = []
  · rw [if_pos hids0] at hb
    refine ⟨b, hb, rfl, rfl, rfl, ?_⟩
    subst hids0
    simp
  · rw [if_neg hids0] at hb
    simp only [List.mem_map] at hb
    obtain ⟨a, ha, rfl⟩ := hb
    by_cases hid : a.id ∈ ids
    · rw [if_pos hid]
      exact ⟨a, ha, rfl, rfl, rfl, by simp [hid]⟩
    · rw [if_neg hid]
      refine ⟨a, ha, rfl, rfl, rfl, ?_⟩
      simp [hid]

/-- Claim C2 amended: when the sweep closes a case whose arguments are all unmarked,
the arguments it marks are exactly the first 3 of the store-chosen `votes`-descending
ordering, and every marked argument has at least as many likes as every unmarked one;
ties at the cut are resolved by the store's order, not by `createdAt`. -/
theorem top3_marks_first3_of_store_order (db : DB) (c : CaseRow)
    (ord ordR : List ArgumentRow) (now : Nat)
    (hids : (db.arguments.map (fun a => a.id)).Nodup)
    (hq : isArgQueryResult db c.id ord)
    (hfresh : ∀ a ∈ db.arguments, a.caseId = c.id → a.isTop3 = false) :
    (∀ b ∈ (closeOneCase db c ord ordR now).arguments, b.caseId = c.id →
      (b.isTop3 = true ↔ b.id ∈ (ord.take 3).map (fun a => a.id))) ∧
    (∀ b1 ∈ (closeOneCase db c ord ordR now).arguments,
      ∀ b2 ∈ (closeOneCase db c ord ordR now).arguments,
        b1.caseId = c.id → b2.caseId = c.id → b1.isTop3 = true → b2.isTop3 = false →
          b2.votes ≤ b1.votes) := by
  have hmem : ∀ a : ArgumentRow, a ∈ db.arguments → a.caseId = c.id → a ∈ ord := by
    intro a ha hac
    rw [hq.1.mem_iff]
    rw [List.mem_filter]
    exact ⟨ha, decide_eq_true hac⟩
  have hmemrev : ∀ x : ArgumentRow, x ∈ ord → x ∈ db.arguments := by
    intro x hx
    exact (List.mem_filter.mp (hq.1.mem_iff.mp hx)).1
  have horigin : ∀ b ∈ (closeOneCase db c ord ordR now).arguments,
      ∃ a ∈ db.arguments, b.id = a.id ∧ b.votes = a.votes ∧ b.caseId = a.caseId ∧
        (b.isTop3 = true ↔ (a.isTop3 = true ∨ a.id ∈ (ord.take 3).map (fun x => x.id))) := by
    intro b hb
    rw [closeOneCase_arguments] at hb
    exact markTop3_row_origin hb
  have htake : ∀ a : ArgumentRow, a ∈ db.arguments → a.caseId = c.id →
      a.id ∈ (ord.take 3).map (fun x => x.id) → a ∈ ord.take 3 := by
    intro a ha hac hid
    obtain ⟨x, hx, hxid⟩ := List.mem_map.mp hid
    have hxo : x ∈ db.arguments := hmemrev x (List.mem_of_mem_take hx)
    have : x = a := List.inj_on_of_nodup_map hids hxo ha hxid
    exact this ▸ hx
  constructor
  · intro b hb hbc
    obtain ⟨a, ha, hid, hv, hcid, hiff⟩ := horigin b hb
    rw [hiff, hid]
    have hfr := hfresh a ha (hcid ▸ hbc)
    constructor
    · rintro (hmark | hmem2)
      · rw [hfr] at hmark
        cases hmark
      · exact hmem2
    · exact fun hm => Or.inr hm
  · intro b1 hb1 b2 hb2 hc1 hc2 hm1 hm2
    obtain ⟨a1, ha1, hid1, hv1, hcid1, hiff1⟩ := horigin b1 hb1
    obtain ⟨a2, ha2, hid2, hv2, hcid2, hiff2⟩ := horigin b2 hb2
    have hfr1 := hfresh a1 ha1 (hcid1 ▸ hc1)
    have hfr2 := hfresh a2 ha2 (hcid2 ▸ hc2)
    have ha1top : a1.id ∈ (ord.take 3).map (fun x => x.id) := by
      rcases hiff1.mp hm1 with hmark | hmem2
      · rw [hfr1] at hmark
        cases hmark
      · exact hid1 ▸ hmem2
    have ha1take : a1 ∈ ord.take 3 := htake a1 ha1 (hcid1 ▸ hc1) ha1top
    have ha2nottop : a2.id ∉ (ord.take 3).map (fun x => x.id) := by
      intro hmem2
      have : b2.isTop3 = true := hiff2.mpr (Or.inr (hid2 ▸ hmem2))
      rw [hm2] at this
      cases this
    have ha2drop : a2 ∈ ord.drop 3 := by
      have ha2ord : a2 ∈ ord := hmem a2 ha2 (hcid2 ▸ hc2)
      rw [← List.take_append_drop 3 ord, List.mem_append] at ha2ord
      rcases ha2ord with h | h
      · exact absurd (List.mem_map_of_mem (fun x => x.id) h) ha2nottop
      · exact h
    have hpw := hq.2
    rw [← List.take_append_drop 3 ord, List.pairwise_append] at hpw
    have := hpw.2.2 a1 ha1take a2 ha2drop
    rw [hv1, hv2]
    exact this

/-- Witness for the amended C2 theorem on the concrete tied store. -/
theorem top3_marks_first3_of_store_order_witness :
    (∀ b ∈ (closeOneCase dbC2 caseC2 ordC2 ordC2 600000).arguments, b.caseId = caseC2.id →
      (b.isTop3 = true ↔ b.id ∈ (ordC2.take 3).map (fun a => a.id))) ∧
    (∀ b1 ∈ (closeOneCase dbC2 caseC2 ordC2 ordC2 600000).arguments,
      ∀ b2 ∈ (closeOneCase dbC2 caseC2 ordC2 ordC2 600000).arguments,
        b1.caseId = caseC2.id → b2.caseId = caseC2.id → b1.isTop3 = true →
          b2.isTop3 = false → b2.votes ≤ b1.votes) :=
  top3_marks_first3_of_store_order dbC2 caseC2 ordC2 ordC2 600000 (by decide) (by decide)
    (by decide)

/-- Whatever `generate_verdict` returns carries the hash of its own verdict and
reasoning, sealed before anything is persisted. -/
theorem generateVerdict_hash {resp : VerdictResponse} {vd : VerdictData}
    (h : generateVerdict resp = .ok vd) :
    vd.verdictHash = sha256Hex (utf8Bytes (vd.verdict ++ "|" ++ vd.reasoning)) := by
  unfold generateVerdict at h
  split at h
  · exact absurd h (by simp)
  · simp only [Except.ok.injEq] at h
    rw [← h]

/-- Claim C8: the case created by `generate_ai_case_job` is persisted with
`verdictHash = SHA256(verdict ++ "|" ++ reasoning)` (the hash computed from the
verdict bundle before the row is written), directly in status `Active`, with
`closesAt` equal to the generation time plus 24 hours. -/
theorem generateAiCaseJob_seals_hash (db : DB) (resp : VerdictResponse)
    (vd : VerdictData) (title context : String) (btx : Option String)
    (genNow now newId : Nat)
    (hv : generateVerdict resp = .ok vd)
    (hfresh : ∀ c ∈ db.cases, c.id ≠ newId) :
    ∃ cnew, (generateAiCaseJob db (generateCaseWithVerdict title context vd genNow) btx
        now newId).findCase newId = some cnew ∧
      cnew.verdictHash =
        some (sha256Hex (utf8Bytes (vd.verdict ++ "|" ++ vd.reasoning))) ∧
      cnew.aiVerdict = some vd.verdict ∧
      cnew.aiVerdictReasoning = some vd.reasoning ∧
      cnew.status = "active" ∧
      cnew.closesAt = some (genNow + 86400) := by
  have hhash := generateVerdict_hash hv
  have hnone : findByKey (fun c : CaseRow => c.id) newId db.cases = none := by
    unfold findByKey
    rw [List.find?_eq_none]
    intro x hx
    simp [hfresh x hx]
  refine ⟨{ id := newId, title := title, context := context, status := "active"
            aiVerdict := some vd.verdict, aiVerdictReasoning := some vd.reasoning
            aiConfidence := some vd.confidence, verdictHash := some vd.verdictHash
            blockchainTxHash := btx, yesVotes := 0, noVotes := 0, totalParticipants := 0
            rewardPool := none, createdById := none, isAiGenerated := true
            createdAt := now, closesAt := some (genNow + 86400), closedAt := none },
          ?_, ?_, rfl, rfl, rfl, rfl⟩
  · show findByKey _ newId (db.cases ++ [_]) = _
    rw [findByKey_append_of_none _ _ _ _ hnone]
    simp [findByKey, generateCaseWithVerdict]
  · show some vd.verdictHash = _
    rw [hhash]

/-- Witness for C8: a concrete verdict bundle is normalised, sealed and persisted
active with a 24-hour window. -/
theorem generateAiCaseJob_seals_hash_witness :
    ∃ cnew, (generateAiCaseJob dbC8 (generateCaseWithVerdict "t" "ctx" vdC8 1000) none
        2000 1).findCase 1 = some cnew ∧
      cnew.verdictHash =
        some (sha256Hex (utf8Bytes (vdC8.verdict ++ "|" ++ vdC8.reasoning))) ∧
      cnew.aiVerdict = some vdC8.verdict ∧
      cnew.aiVerdictReasoning = some vdC8.reasoning ∧
      cnew.status = "active" ∧
      cnew.closesAt = some (1000 + 86400) :=
  generateAiCaseJob_seals_hash dbC8 respC8 vdC8 "t" "ctx" none 1000 2000 1 rfl
    (by intro c hc; cases hc)

end MoralDuel
